import Mathlib

/-!
# signalfx-go-tracing: the tracing adapters and the active-span binding

A shallow embedding of the adapter code under `contrib/` (chi, grpc, database/sql,
go-redis, aws-sdk-go, graphql-go, net/http, miekg/dns) and of the context binding
exercised by `ddtrace/tracer/context_test.go`.

Conventions of the embedding

* A Go function that calls into the tracer or into the wrapped library is a Lean
  function that returns, next to its Go result, the list of those calls in program
  order (`Event`).  What the called code answers is an argument of the Lean function.
* `ddtrace.Span` and `context.Context` are interfaces for the adapters, so the adapter
  code is generic in the types `Ctx` and `Span`.
* The constants of package `ext` are not part of the sources at hand; they are the
  fields of the record `Ext`.
* Only executions that return are described: a panic raised by wrapped code is outside
  the embedding.
-/

set_option linter.dupNamespace false

namespace SignalFx

/-! ## Go values -/

/-- A float64 as far as the adapters look at it: they store it and compare it with zero.
`fin neg mant exp` stands for the finite value `(-1)^neg * mant * 2^exp`. -/
inductive Float64
  | nan
  | inf (neg : Bool)
  | fin (neg : Bool) (mant : Nat) (exp : Int)
  deriving DecidableEq, Repr

namespace Float64

/-- Go `x > 0`. -/
def gtZero : Float64 → Bool
  | nan => false
  | inf neg => !neg
  | fin neg mant _ => !neg && mant != 0

/-- Go `x <= 0`. -/
def leZero : Float64 → Bool
  | nan => false
  | inf neg => neg
  | fin neg mant _ => neg || mant == 0

/-- The literal `1.0`. -/
def one : Float64 := fin false 1 0

/-- The literal `0.0`. -/
def zero : Float64 := fin false 0 0

end Float64

/-- A non-nil Go `error` value. `sentinel` is a package-level error variable such as
`driver.ErrSkip`, `text` an error made by `errors.New` or `fmt.Errorf`, `status` a gRPC
status error with its code. -/
inductive GoError
  | sentinel (name : String)
  | text (msg : String)
  | status (code : Nat) (msg : String)
  deriving DecidableEq, Repr

/-- A Go `error`: `none` is `nil`. -/
abbrev Err := Option GoError

/-- A tag value (`interface{}` in Go): the adapters pass strings, float64 rates and errors. -/
inductive Value
  | str (s : String)
  | float (f : Float64)
  | err (e : GoError)
  deriving DecidableEq, Repr

/-- A `map[string][]string`: `http.Header` and gRPC `metadata.MD`. -/
abbrev Header := List (String × List String)

/-- Go `strconv.Itoa`. -/
def Itoa (n : Int) : String := toString n

namespace tracer

/-- The struct `spanContext` of package tracer, with the two fields that
`context_test.go` sets: `&spanContext{spanID: 123, traceID: 456}`. -/
structure spanContext where
  traceID : Nat
  spanID : Nat
  deriving DecidableEq, Repr

end tracer

namespace ddtrace

/-- The interface `ddtrace.SpanContext`, handed over by `tracer.Extract` and
`Span.Context()`: the context of a no-op span, or a `*spanContext` of the tracer. -/
inductive SpanContext
  | NoopSpanContext
  | spanContext (c : tracer.spanContext)
  deriving DecidableEq, Repr

/-- The start options the adapters build with the functions of package `tracer`.
In Go an option is a closure over `StartSpanConfig`; the constructor records which
function of `tracer` made it and with which arguments. -/
inductive StartSpanOption
  | ServiceName (name : String)
  | ResourceName (name : String)
  | SpanType (name : String)
  | Tag (k : String) (value : Value)
  | ChildOf (ctx : SpanContext)
  | StartTime (t : Int)
  deriving DecidableEq, Repr

/-- The finish options made by `tracer.WithError` and `tracer.NoDebugStack`. -/
inductive FinishOption
  | WithError (err : Err)
  | NoDebugStack
  deriving DecidableEq, Repr

end ddtrace

open ddtrace

/-- The string constants of package `ext` that the adapters use. -/
structure Ext where
  EventSampleRate : String
  HTTPMethod : String
  HTTPURL : String
  HTTPCode : String
  Error : String
  ResourceName : String
  DBStatement : String
  DBType : String
  TargetHost : String
  TargetPort : String
  SpanTypeWeb : String
  SpanTypeSQL : String
  SpanTypeRedis : String
  SpanTypeHTTP : String
  SpanTypeDNS : String
  AppTypeRPC : String
  deriving DecidableEq, Repr

/-- The carrier given to `tracer.Extract`. -/
inductive Carrier
  | HTTPHeadersCarrier (h : Header)
  | MDCarrier (md : Header)
  deriving DecidableEq, Repr

/-- The functions of package `tracer` that the adapters call. Their code is not among the
sources at hand, so the adapters take them as arguments. -/
structure TracerAPI (Ctx Span : Type) where
  StartSpanFromContext : Ctx → String → List StartSpanOption → Span × Ctx
  SpanFromContext : Ctx → Span × Bool
  Extract : Carrier → Except GoError SpanContext

/-- One call made by an adapter, in program order: into the tracer, on a span, or (`call`)
into the wrapped library. -/
inductive Event (Ctx Span Call : Type)
  | StartSpanFromContext (ctx : Ctx) (operationName : String) (opts : List StartSpanOption)
  | SetTag (span : Span) (key : String) (value : Value)
  | Finish (span : Span)
  | FinishWithOptionsExt (span : Span) (opts : List FinishOption)
  | call (c : Call)

/-! ## contrib/go-chi/chi -/

namespace chi

/-- Go `config` of option.go. -/
structure config where
  serviceName : String
  spanOpts : List StartSpanOption
  analyticsRate : Float64
  deriving DecidableEq, Repr

/-- Go `Option`: a function that updates the config. -/
abbrev Option := config → config

/-- Go `new(config)`: the zero value. -/
def newConfig : config := ⟨"", [], Float64.zero⟩

/-- Go `defaults`; `globalRate` is what `globalconfig.AnalyticsRate()` returns. -/
def defaults (globalRate : Float64) (cfg : config) : config :=
  { cfg with serviceName := "chi.router", analyticsRate := globalRate }

/-- Go `WithServiceName`. -/
def WithServiceName (name : String) : Option :=
  fun cfg => { cfg with serviceName := name }

/-- Go `WithSpanOptions`. -/
def WithSpanOptions (opts : List StartSpanOption) : Option :=
  fun cfg => { cfg with spanOpts := opts }

/-- Go `WithAnalyticsRate`. -/
def WithAnalyticsRate (rate : Float64) : Option :=
  fun cfg => { cfg with analyticsRate := rate }

/-- Go `WithAnalytics(on)`. -/
def WithAnalytics (enable : Bool) : Option :=
  if enable then WithAnalyticsRate Float64.one else WithAnalyticsRate Float64.zero

/-- The first lines of `Middleware`: the config after `defaults` and the options in order. -/
def buildConfig (globalRate : Float64) (opts : List Option) : config :=
  opts.foldl (fun cfg fn => fn cfg) (defaults globalRate newConfig)

/-- The fields of `*http.Request` that the middleware reads. -/
structure Request (Ctx : Type) where
  Method : String
  URLPath : String
  Header : Header
  ctx : Ctx

/-- What the middleware observes once `next.ServeHTTP` has returned: the status recorded by
the wrapping response writer and the pattern of the chi route context. -/
structure Served where
  status : Int
  routePattern : String
  deriving DecidableEq, Repr

/-- The call `next.ServeHTTP(ww, r.WithContext(ctx))`. -/
inductive Call (Ctx : Type)
  | ServeHTTP (ctx : Ctx)

/-- The start options built at the top of the request handler of `Middleware`. -/
def startOpts {Ctx Span : Type} (E : Ext) (T : TracerAPI Ctx Span) (cfg : config)
    (r : Request Ctx) : List StartSpanOption :=
  let opts := [StartSpanOption.SpanType E.SpanTypeWeb,
    StartSpanOption.ServiceName cfg.serviceName,
    StartSpanOption.Tag E.HTTPMethod (Value.str r.Method),
    StartSpanOption.Tag E.HTTPURL (Value.str r.URLPath)]
  let opts := if cfg.analyticsRate.gtZero then
      opts ++ [StartSpanOption.Tag E.EventSampleRate (Value.float cfg.analyticsRate)]
    else opts
  let opts := match T.Extract (Carrier.HTTPHeadersCarrier r.Header) with
    | Except.ok spanctx => opts ++ [StartSpanOption.ChildOf spanctx]
    | Except.error _ => opts
  opts ++ cfg.spanOpts

/-- The request handler returned by `Middleware(opts...)(next)`. `StatusText` is
`http.StatusText`, `next` is what the next handler leaves behind when it is served with the
request context it is given. The deferred `span.Finish()` runs when the handler returns. -/
def handler {Ctx Span : Type} (E : Ext) (T : TracerAPI Ctx Span) (StatusText : Int → String)
    (cfg : config) (next : Ctx → Served) (r : Request Ctx) : List (Event Ctx Span (Call Ctx)) :=
  let opts := startOpts E T cfg r
  let started := T.StartSpanFromContext r.ctx "http.request" opts
  let span := started.1
  let ctx := started.2
  let deferred := [Event.Finish span]
  let served := next ctx
  let resourceName := served.routePattern
  let resourceName := if resourceName = "" then "unknown" else resourceName
  let resourceName := r.Method ++ " " ++ resourceName
  let status := served.status
  let errTag := if status ≥ 500 ∧ status < 600 then
      [Event.SetTag span E.Error
        (Value.err (GoError.text (Itoa status ++ ": " ++ StatusText status)))]
    else []
  [Event.StartSpanFromContext r.ctx "http.request" opts,
    Event.call (Call.ServeHTTP ctx),
    Event.SetTag span E.ResourceName (Value.str resourceName),
    Event.SetTag span E.HTTPCode (Value.str (Itoa status))]
  ++ errTag ++ deferred

/-- Go `Middleware`. -/
def Middleware {Ctx Span : Type} (E : Ext) (T : TracerAPI Ctx Span) (StatusText : Int → String)
    (globalRate : Float64) (opts : List Option) (next : Ctx → Served) (r : Request Ctx) :
    List (Event Ctx Span (Call Ctx)) :=
  handler E T StatusText (buildConfig globalRate opts) next r

end chi

/-! ## contrib/google.golang.org/grpc -/

namespace grpc

/-- Go `startSpanFromContext`. `tagMethod` is the package constant of that name and
`FromIncomingContext` is `metadata.FromIncomingContext` (a nil map is the empty one).
The result is the pair returned by `tracer.StartSpanFromContext`, next to the call made. -/
def startSpanFromContext {Ctx Span Call : Type} (E : Ext) (T : TracerAPI Ctx Span)
    (tagMethod : String) (FromIncomingContext : Ctx → Header)
    (ctx : Ctx) (method operation service : String) (rate : Float64) :
    (Span × Ctx) × List (Event Ctx Span Call) :=
  let opts := [StartSpanOption.ServiceName service,
    StartSpanOption.ResourceName method,
    StartSpanOption.Tag tagMethod (Value.str method),
    StartSpanOption.SpanType E.AppTypeRPC]
  let opts := if rate.gtZero then
      opts ++ [StartSpanOption.Tag E.EventSampleRate (Value.float rate)]
    else opts
  let md := FromIncomingContext ctx
  let opts := match T.Extract (Carrier.MDCarrier md) with
    | Except.ok sctx => opts ++ [StartSpanOption.ChildOf sctx]
    | Except.error _ => opts
  (T.StartSpanFromContext ctx operation opts,
    [Event.StartSpanFromContext ctx operation opts])

/-- Go `io.EOF`. -/
def EOF : GoError := GoError.sentinel "io.EOF"

/-- Go `context.Canceled`. -/
def Canceled : GoError := GoError.sentinel "context.Canceled"

/-- What grpc.go uses of google.golang.org/grpc: `status.Code`, `codes.OK` and the `String`
method of a code. -/
structure Lib where
  Code : Err → Nat
  OK : Nat
  CodeString : Nat → String

/-- The fields of `config` that `finishWithError` reads; `nonErrorCodes` is the lookup in
the map of that name. -/
structure config where
  nonErrorCodes : Nat → Bool
  noDebugStack : Bool

/-- Go `finishWithError`; `tagCode` is the package constant of that name. -/
def finishWithError {Ctx Span Call : Type} (L : Lib) (tagCode : String) (span : Span)
    (err : Err) (cfg : config) : List (Event Ctx Span Call) :=
  let err := if err = some EOF ∨ err = some Canceled then none else err
  let errcode := L.Code err
  let err := if errcode = L.OK ∨ cfg.nonErrorCodes errcode = true then none else err
  let finishOptions := [FinishOption.WithError err]
  let finishOptions := if cfg.noDebugStack then finishOptions ++ [FinishOption.NoDebugStack]
    else finishOptions
  [Event.SetTag span tagCode (Value.str (L.CodeString errcode)),
    Event.FinishWithOptionsExt span finishOptions]

end grpc

/-! ## contrib/database/sql -/

namespace sql

/-- Go `driver.ErrSkip` of database/sql/driver. -/
def ErrSkip : GoError := GoError.sentinel "driver.ErrSkip"

/-- The fields of `registerConfig` that driver.go reads. -/
structure registerConfig where
  serviceName : String
  analyticsRate : Float64
  deriving DecidableEq, Repr

/-- Go `traceParams`. The map `meta` is the list of its entries in the order in which the
`range` loop visits them. -/
structure traceParams where
  config : registerConfig
  driverName : String
  resource : String
  meta : List (String × String)
  deriving DecidableEq, Repr

/-- Go `(*traceParams).tryTrace`. -/
def tryTrace {Ctx Span Call : Type} (E : Ext) (T : TracerAPI Ctx Span) (tp : traceParams)
    (ctx : Ctx) (resource query : String) (startTime : Int) (err : Err) :
    List (Event Ctx Span Call) :=
  if err = some ErrSkip then []
  else
    let opts := [StartSpanOption.SpanType E.SpanTypeSQL,
      StartSpanOption.ServiceName tp.config.serviceName,
      StartSpanOption.StartTime startTime]
    let rate := tp.config.analyticsRate
    let opts := if rate.gtZero then
        opts ++ [StartSpanOption.Tag E.EventSampleRate (Value.float rate)]
      else opts
    let span := (T.StartSpanFromContext ctx resource opts).1
    let statement := if query ≠ "" then [Event.SetTag span E.DBStatement (Value.str query)]
      else []
    let resource1 := if query ≠ "" then query else resource
    [Event.StartSpanFromContext ctx resource opts]
    ++ statement
    ++ [Event.SetTag span E.ResourceName (Value.str resource1)]
    ++ tp.meta.map (fun kv => Event.SetTag span kv.1 (Value.str kv.2))
    ++ [Event.SetTag span E.DBType (Value.str tp.driverName),
      Event.FinishWithOptionsExt span [FinishOption.WithError err]]

end sql

/-! ## contrib/go-redis/redis -/

namespace redis

/-- Go `redis.Nil` of go-redis. -/
def Nil : GoError := GoError.sentinel "redis.Nil"

/-- An element of `cmd.Args()`: a string or a value of another type. -/
inductive Arg
  | str (s : String)
  | other
  deriving DecidableEq, Repr

/-- Which `String` method a `redis.Cmder` has: that of `fmt.Stringer`, the one that also
returns an error, or none. -/
inductive StringMethod
  | Stringer (s : String)
  | StringErr (s : String) (err : Err)
  | absent
  deriving DecidableEq, Repr

/-- A `redis.Cmder` as `cmderToString` sees it. -/
structure Cmder where
  String : StringMethod
  Args : List Arg
  deriving DecidableEq, Repr

/-- Go `cmderToString`. -/
def cmderToString (cmd : Cmder) : String :=
  let fromArgs : String :=
    match cmd.Args with
    | [] => ""
    | Arg.str s :: _ => s
    | Arg.other :: _ => ""
  match cmd.String with
  | StringMethod.Stringer s => s
  | StringMethod.StringErr s err => if err = none then s else fromArgs
  | StringMethod.absent => fromArgs

/-- Go `commandsToString`. -/
def commandsToString (cmds : List Cmder) : String :=
  cmds.foldl (fun b cmd => b ++ cmderToString cmd ++ "\n") ""

/-- The fields of `clientConfig` that redis.go reads. -/
structure clientConfig where
  serviceName : String
  analyticsRate : Float64
  deriving DecidableEq, Repr

/-- Go `params`. -/
structure params where
  host : String
  port : String
  db : String
  config : clientConfig
  deriving DecidableEq, Repr

/-- The calls into go-redis: the wrapped process function and the embedded pipeline. -/
inductive Call
  | oldProcess (cmd : Cmder)
  | Exec
  deriving DecidableEq, Repr

/-- Go `Pipeliner`: `underlyingExec` is what the embedded `redis.Pipeliner` answers to
`Exec()`. -/
structure Pipeliner (Ctx : Type) where
  underlyingExec : List Cmder × Err
  params : params
  ctx : Ctx

/-- Go `(*Pipeliner).execWithContext`. -/
def Pipeliner.execWithContext {Ctx Span : Type} (E : Ext) (T : TracerAPI Ctx Span)
    (c : Pipeliner Ctx) (ctx : Ctx) : (List Cmder × Err) × List (Event Ctx Span Call) :=
  let p := c.params
  let opts := [StartSpanOption.SpanType E.SpanTypeRedis,
    StartSpanOption.ServiceName p.config.serviceName,
    StartSpanOption.ResourceName "redis",
    StartSpanOption.Tag E.TargetHost (Value.str p.host),
    StartSpanOption.Tag E.TargetPort (Value.str p.port),
    StartSpanOption.Tag "out.db" (Value.str p.db)]
  let rate := p.config.analyticsRate
  let opts := if rate.gtZero then
      opts ++ [StartSpanOption.Tag E.EventSampleRate (Value.float rate)]
    else opts
  let span := (T.StartSpanFromContext ctx "redis.command" opts).1
  let cmds := c.underlyingExec.1
  let err := c.underlyingExec.2
  let finishOpts := if err ≠ some Nil then [FinishOption.WithError err] else []
  ((cmds, err),
    [Event.StartSpanFromContext ctx "redis.command" opts,
      Event.call Call.Exec,
      Event.SetTag span E.ResourceName (Value.str (commandsToString cmds)),
      Event.SetTag span "redis.pipeline_length" (Value.str (Itoa cmds.length)),
      Event.FinishWithOptionsExt span finishOpts])

/-- Go `(*Pipeliner).ExecWithContext`. -/
def Pipeliner.ExecWithContext {Ctx Span : Type} (E : Ext) (T : TracerAPI Ctx Span)
    (c : Pipeliner Ctx) (ctx : Ctx) : (List Cmder × Err) × List (Event Ctx Span Call) :=
  c.execWithContext E T ctx

/-- Go `(*Pipeliner).Exec`. -/
def Pipeliner.Exec {Ctx Span : Type} (E : Ext) (T : TracerAPI Ctx Span)
    (c : Pipeliner Ctx) : (List Cmder × Err) × List (Event Ctx Span Call) :=
  c.execWithContext E T c.ctx

/-- Go `Client`, as far as the process wrapper reads it. -/
structure Client (Ctx : Type) where
  params : params
  ctx : Ctx

/-- Go `createWrapperFromClient(tc)(oldProcess)(cmd)`: the process function installed by
`WrapProcess`. -/
def createWrapperFromClient {Ctx Span : Type} (E : Ext) (T : TracerAPI Ctx Span)
    (tc : Client Ctx) (oldProcess : Cmder → Err) (cmd : Cmder) :
    Err × List (Event Ctx Span Call) :=
  let ctx := tc.ctx
  let raw := cmderToString cmd
  let parts := raw.splitOn " "
  let length : Int := (parts.length : Int) - 1
  let p := tc.params
  let opts := [StartSpanOption.SpanType E.SpanTypeRedis,
    StartSpanOption.ServiceName p.config.serviceName,
    StartSpanOption.ResourceName (parts.headD ""),
    StartSpanOption.Tag E.TargetHost (Value.str p.host),
    StartSpanOption.Tag E.TargetPort (Value.str p.port),
    StartSpanOption.Tag "out.db" (Value.str p.db),
    StartSpanOption.Tag "redis.raw_command" (Value.str raw),
    StartSpanOption.Tag "redis.args_length" (Value.str (Itoa length))]
  let rate := p.config.analyticsRate
  let opts := if rate.gtZero then
      opts ++ [StartSpanOption.Tag E.EventSampleRate (Value.float rate)]
    else opts
  let span := (T.StartSpanFromContext ctx "redis.command" opts).1
  let err := oldProcess cmd
  let finishOpts := if err ≠ some Nil then [FinishOption.WithError err] else []
  (err,
    [Event.StartSpanFromContext ctx "redis.command" opts,
      Event.call (Call.oldProcess cmd),
      Event.FinishWithOptionsExt span finishOpts])

end redis

/-! ## contrib/aws/aws-sdk-go/aws -/

namespace aws

/-- Go constant `tagAWSAgent`. -/
def tagAWSAgent : String := "aws.agent"

/-- Go constant `tagAWSOperation`. -/
def tagAWSOperation : String := "aws.operation"

/-- Go constant `tagAWSRegion`. -/
def tagAWSRegion : String := "aws.region"

/-- The fields of `config` that aws.go reads. -/
structure config where
  serviceName : String
  analyticsRate : Float64
  deriving DecidableEq, Repr

/-- Go `handlers`. -/
structure handlers where
  cfg : config
  deriving DecidableEq, Repr

/-- What the handlers read of a `*request.Request`: `UserAgent` is
`HTTPRequest.Header.Get("User-Agent")`, `URL` is `HTTPRequest.URL.String()`, `HTTPResponse`
holds the status code when the response is not nil, `ctx` is `req.Context()`. -/
structure Request (Ctx : Type) where
  ServiceName : String
  SigningRegion : String
  OperationName : String
  OperationHTTPMethod : String
  UserAgent : String
  URL : String
  HTTPResponse : Option Int
  Error : Err
  ctx : Ctx

/-- Go `(*handlers).awsService`. -/
def handlers.awsService {Ctx : Type} (_h : handlers) (req : Request Ctx) : String :=
  req.ServiceName

/-- Go `(*handlers).awsRegion`. -/
def handlers.awsRegion {Ctx : Type} (_h : handlers) (req : Request Ctx) : String :=
  req.SigningRegion

/-- Go `(*handlers).awsOperation`. -/
def handlers.awsOperation {Ctx : Type} (_h : handlers) (req : Request Ctx) : String :=
  req.OperationName

/-- Go `(*handlers).awsAgent`. -/
def handlers.awsAgent {Ctx : Type} (_h : handlers) (req : Request Ctx) : String :=
  if req.UserAgent ≠ "" then req.UserAgent else "aws-sdk-go"

/-- Go `(*handlers).serviceName`. -/
def handlers.serviceName {Ctx : Type} (h : handlers) (req : Request Ctx) : String :=
  if h.cfg.serviceName ≠ "" then h.cfg.serviceName else "aws." ++ h.awsService req

/-- Go `(*handlers).resourceName`. -/
def handlers.resourceName {Ctx : Type} (h : handlers) (req : Request Ctx) : String :=
  h.awsService req ++ "." ++ req.OperationName

/-- Go `(*handlers).operationName`. -/
def handlers.operationName {Ctx : Type} (h : handlers) (req : Request Ctx) : String :=
  h.awsService req ++ ".command"

/-- Go `(*handlers).Send`: the request after `req.SetContext(ctx)` and the calls made. -/
def handlers.Send {Ctx Span Call : Type} (E : Ext) (T : TracerAPI Ctx Span) (h : handlers)
    (req : Request Ctx) : Request Ctx × List (Event Ctx Span Call) :=
  let opts := [StartSpanOption.SpanType E.SpanTypeHTTP,
    StartSpanOption.ServiceName (h.serviceName req),
    StartSpanOption.ResourceName (h.resourceName req),
    StartSpanOption.Tag tagAWSAgent (Value.str (h.awsAgent req)),
    StartSpanOption.Tag tagAWSOperation (Value.str (h.awsOperation req)),
    StartSpanOption.Tag tagAWSRegion (Value.str (h.awsRegion req)),
    StartSpanOption.Tag E.HTTPMethod (Value.str req.OperationHTTPMethod),
    StartSpanOption.Tag E.HTTPURL (Value.str req.URL)]
  let opts := if h.cfg.analyticsRate.gtZero then
      opts ++ [StartSpanOption.Tag E.EventSampleRate (Value.float h.cfg.analyticsRate)]
    else opts
  let ctx := (T.StartSpanFromContext req.ctx (h.operationName req) opts).2
  ({ req with ctx := ctx },
    [Event.StartSpanFromContext req.ctx (h.operationName req) opts])

/-- Go `(*handlers).Complete`. -/
def handlers.Complete {Ctx Span Call : Type} (E : Ext) (T : TracerAPI Ctx Span) (_h : handlers)
    (req : Request Ctx) : List (Event Ctx Span Call) :=
  let found := T.SpanFromContext req.ctx
  let span := found.1
  let ok := found.2
  if !ok then []
  else
    let code := match req.HTTPResponse with
      | some statusCode => [Event.SetTag span E.HTTPCode (Value.str (Itoa statusCode))]
      | none => []
    code ++ [Event.FinishWithOptionsExt span [FinishOption.WithError req.Error]]

end aws

/-! ## contrib/graph-gophers/graphql-go -/

namespace graphql

/-- Go constant `tagGraphqlField`. -/
def tagGraphqlField : String := "graphql.field"

/-- Go constant `tagGraphqlQuery`. -/
def tagGraphqlQuery : String := "graphql.query"

/-- Go constant `tagGraphqlType`. -/
def tagGraphqlType : String := "graphql.type"

/-- The fields of `config` that graphql.go reads. -/
structure config where
  serviceName : String
  analyticsRate : Float64
  deriving DecidableEq, Repr

/-- Go `Tracer`. -/
structure Tracer where
  cfg : config
  deriving DecidableEq, Repr

/-- A `*errors.QueryError` of graphql-go, by the text of its `Error()`. -/
structure QueryError where
  message : String
  deriving DecidableEq, Repr

/-- The finish function returned by `TraceQuery`, for the span it closed over. -/
def TraceQueryFinishFunc {Ctx Span Call : Type} (span : Span) (errs : List QueryError) :
    List (Event Ctx Span Call) :=
  let err : Err :=
    match errs with
    | [] => none
    | [e] => some (GoError.text e.message)
    | e :: rest =>
      some (GoError.text (e.message ++ " (and " ++ Itoa rest.length ++ " more errors)"))
  [Event.FinishWithOptionsExt span [FinishOption.WithError err]]

/-- Go `(*Tracer).TraceQuery`: the returned context, the span the finish function closes
over, and the calls made. -/
def Tracer.TraceQuery {Ctx Span Call : Type} (E : Ext) (T : TracerAPI Ctx Span) (t : Tracer)
    (ctx : Ctx) (queryString : String) (_operationName : String) :
    (Ctx × Span) × List (Event Ctx Span Call) :=
  let opts := [StartSpanOption.ServiceName t.cfg.serviceName,
    StartSpanOption.Tag tagGraphqlQuery (Value.str queryString)]
  let opts := if t.cfg.analyticsRate.gtZero then
      opts ++ [StartSpanOption.Tag E.EventSampleRate (Value.float t.cfg.analyticsRate)]
    else opts
  let started := T.StartSpanFromContext ctx "graphql.request" opts
  ((started.2, started.1), [Event.StartSpanFromContext ctx "graphql.request" opts])

/-- The finish function returned by `TraceField`, for the span it closed over. -/
def TraceFieldFinishFunc {Ctx Span Call : Type} (span : Span) (err : Option QueryError) :
    List (Event Ctx Span Call) :=
  match err with
  | some e => [Event.FinishWithOptionsExt span
      [FinishOption.WithError (some (GoError.text e.message))]]
  | none => [Event.Finish span]

/-- Go `(*Tracer).TraceField`: the returned context, the span the finish function closes
over, and the calls made. -/
def Tracer.TraceField {Ctx Span Call : Type} (E : Ext) (T : TracerAPI Ctx Span) (t : Tracer)
    (ctx : Ctx) (_label typeName fieldName : String) (_trivial : Bool) :
    (Ctx × Span) × List (Event Ctx Span Call) :=
  let opts := [StartSpanOption.ServiceName t.cfg.serviceName,
    StartSpanOption.Tag tagGraphqlField (Value.str fieldName),
    StartSpanOption.Tag tagGraphqlType (Value.str typeName)]
  let opts := if t.cfg.analyticsRate.gtZero then
      opts ++ [StartSpanOption.Tag E.EventSampleRate (Value.float t.cfg.analyticsRate)]
    else opts
  let started := T.StartSpanFromContext ctx "graphql.field" opts
  ((started.2, started.1), [Event.StartSpanFromContext ctx "graphql.field" opts])

end graphql

/-! ## contrib/net/http -/

namespace nethttp

/-- Go `config` of option.go. -/
structure config where
  serviceName : String
  analyticsRate : Float64
  spanOpts : List StartSpanOption
  deriving DecidableEq, Repr

/-- Go `MuxOption`. -/
abbrev MuxOption := config → config

/-- Go `Option = MuxOption`. -/
abbrev Option := MuxOption

/-- Go `new(config)`: the zero value. -/
def newConfig : config := ⟨"", Float64.zero, []⟩

/-- Go `defaults`; `globalRate` is what `globalconfig.AnalyticsRate()` returns. -/
def defaults (globalRate : Float64) (cfg : config) : config :=
  { cfg with analyticsRate := globalRate, serviceName := "http.router" }

/-- Go `WithServiceName`. -/
def WithServiceName (name : String) : MuxOption :=
  fun cfg => { cfg with serviceName := name }

/-- Go `WithAnalyticsRate`. -/
def WithAnalyticsRate (rate : Float64) : MuxOption :=
  fun cfg => { cfg with analyticsRate := rate }

/-- Go `WithAnalytics(on)`. -/
def WithAnalytics (enable : Bool) : MuxOption :=
  if enable then WithAnalyticsRate Float64.one else WithAnalyticsRate Float64.zero

/-- Go `WithSpanOptions`. -/
def WithSpanOptions (opts : List StartSpanOption) : Option :=
  fun cfg => { cfg with spanOpts := cfg.spanOpts ++ opts }

/-- The loop `for _, fn := range opts` after `defaults` in `NewServeMux` and `WrapHandler`. -/
def buildConfig (globalRate : Float64) (opts : List Option) : config :=
  opts.foldl (fun cfg fn => fn cfg) (defaults globalRate newConfig)

/-- The call `httputil.TraceAndServe(h, w, r, service, resource, spanopts...)`;
`H` is the type of handlers. -/
inductive Call (H : Type)
  | TraceAndServe (h : H) (service resource : String) (spanopts : List StartSpanOption)

/-- Go `ServeMux`: the embedded `*http.ServeMux` and the config. -/
structure ServeMux (H : Type) where
  httpServeMux : H
  cfg : config

/-- Go `NewServeMux`; `inner` is what `http.NewServeMux()` returns. -/
def NewServeMux {H : Type} (globalRate : Float64) (inner : H) (opts : List Option) :
    ServeMux H :=
  ⟨inner, buildConfig globalRate opts⟩

/-- Go `(*ServeMux).ServeHTTP`; `route` is the pattern returned by `mux.Handler(r)`. -/
def ServeMux.ServeHTTP {Ctx Span H : Type} (E : Ext) (mux : ServeMux H) (route : String) :
    List (Event Ctx Span (Call H)) :=
  let opts := mux.cfg.spanOpts
  let opts := if mux.cfg.analyticsRate.gtZero then
      opts ++ [StartSpanOption.Tag E.EventSampleRate (Value.float mux.cfg.analyticsRate)]
    else opts
  [Event.call (Call.TraceAndServe mux.httpServeMux mux.cfg.serviceName route opts)]

/-- Go `WrapHandler(h, service, resource, opts...)`: what the returned handler does with a
request. -/
def WrapHandler {Ctx Span H : Type} (globalRate : Float64) (h : H) (service resource : String)
    (opts : List Option) : List (Event Ctx Span (Call H)) :=
  let cfg := buildConfig globalRate opts
  [Event.call (Call.TraceAndServe h service resource cfg.spanOpts)]

end nethttp

/-! ## contrib/miekg/dns -/

namespace dns

/-- The fields of `*dns.Msg` that dns.go reads. -/
structure Msg where
  Opcode : Int
  Rcode : Int
  deriving DecidableEq, Repr

/-- The functions and tables of github.com/miekg/dns behind the wrappers. A nil `*dns.Msg`
result is `none`; the map `OpcodeToString` answers the empty string for a missing key. -/
structure Lib (Ctx Conn : Type) where
  OpcodeToString : Int → String
  Exchange : Msg → String → Option Msg × Err
  ExchangeConn : Conn → Msg → Option Msg × Err
  ExchangeContext : Ctx → Msg → String → Option Msg × Err

/-- The calls into github.com/miekg/dns. -/
inductive Call (Ctx Conn : Type)
  | Exchange (m : Msg) (addr : String)
  | ExchangeConn (c : Conn) (m : Msg)
  | ExchangeContext (ctx : Ctx) (m : Msg) (addr : String)
  | ClientExchange (m : Msg) (addr : String)
  | ClientExchangeContext (ctx : Ctx) (m : Msg) (addr : String)

/-- The start options of `startSpan`. -/
def startSpanOpts {Ctx Conn : Type} (E : Ext) (L : Lib Ctx Conn) (opcode : Int) :
    List StartSpanOption :=
  [StartSpanOption.ServiceName "dns",
    StartSpanOption.ResourceName (L.OpcodeToString opcode),
    StartSpanOption.SpanType E.SpanTypeDNS]

/-- Go `startSpan`. -/
def startSpan {Ctx Span Conn : Type} (E : Ext) (T : TracerAPI Ctx Span) (L : Lib Ctx Conn)
    (ctx : Ctx) (opcode : Int) : Span × Ctx :=
  T.StartSpanFromContext ctx "dns.request" (startSpanOpts E L opcode)

/-- Go `Exchange`; `Background` is `context.Background()`. -/
def Exchange {Ctx Span Conn : Type} (E : Ext) (T : TracerAPI Ctx Span) (L : Lib Ctx Conn)
    (Background : Ctx) (m : Msg) (addr : String) :
    (Option Msg × Err) × List (Event Ctx Span (Call Ctx Conn)) :=
  let span := (startSpan E T L Background m.Opcode).1
  let r := (L.Exchange m addr).1
  let err := (L.Exchange m addr).2
  ((r, err),
    [Event.StartSpanFromContext Background "dns.request" (startSpanOpts E L m.Opcode),
      Event.call (Call.Exchange m addr),
      Event.FinishWithOptionsExt span [FinishOption.WithError err]])

/-- Go `ExchangeConn`. -/
def ExchangeConn {Ctx Span Conn : Type} (E : Ext) (T : TracerAPI Ctx Span) (L : Lib Ctx Conn)
    (Background : Ctx) (c : Conn) (m : Msg) :
    (Option Msg × Err) × List (Event Ctx Span (Call Ctx Conn)) :=
  let span := (startSpan E T L Background m.Opcode).1
  let r := (L.ExchangeConn c m).1
  let err := (L.ExchangeConn c m).2
  ((r, err),
    [Event.StartSpanFromContext Background "dns.request" (startSpanOpts E L m.Opcode),
      Event.call (Call.ExchangeConn c m),
      Event.FinishWithOptionsExt span [FinishOption.WithError err]])

/-- Go `ExchangeContext`: the library is called with the context returned by `startSpan`. -/
def ExchangeContext {Ctx Span Conn : Type} (E : Ext) (T : TracerAPI Ctx Span)
    (L : Lib Ctx Conn) (ctx : Ctx) (m : Msg) (addr : String) :
    (Option Msg × Err) × List (Event Ctx Span (Call Ctx Conn)) :=
  let span := (startSpan E T L ctx m.Opcode).1
  let ctx1 := (startSpan E T L ctx m.Opcode).2
  let r := (L.ExchangeContext ctx1 m addr).1
  let err := (L.ExchangeContext ctx1 m addr).2
  ((r, err),
    [Event.StartSpanFromContext ctx "dns.request" (startSpanOpts E L m.Opcode),
      Event.call (Call.ExchangeContext ctx1 m addr),
      Event.FinishWithOptionsExt span [FinishOption.WithError err]])

/-- Go `Client`: what the methods `Exchange` and `ExchangeContext` of the embedded
`*dns.Client` answer; the second component of an answer is the round trip time. -/
structure Client (Ctx : Type) where
  underlyingExchange : Msg → String → Option Msg × Int × Err
  underlyingExchangeContext : Ctx → Msg → String → Option Msg × Int × Err

/-- Go `(*Client).Exchange`. -/
def Client.Exchange {Ctx Span Conn : Type} (E : Ext) (T : TracerAPI Ctx Span)
    (L : Lib Ctx Conn) (Background : Ctx) (c : Client Ctx) (m : Msg) (addr : String) :
    (Option Msg × Int × Err) × List (Event Ctx Span (Call Ctx Conn)) :=
  let span := (startSpan E T L Background m.Opcode).1
  let r := (c.underlyingExchange m addr).1
  let rtt := (c.underlyingExchange m addr).2.1
  let err := (c.underlyingExchange m addr).2.2
  ((r, rtt, err),
    [Event.StartSpanFromContext Background "dns.request" (startSpanOpts E L m.Opcode),
      Event.call (Call.ClientExchange m addr),
      Event.FinishWithOptionsExt span [FinishOption.WithError err]])

/-- Go `(*Client).ExchangeContext`. -/
def Client.ExchangeContext {Ctx Span Conn : Type} (E : Ext) (T : TracerAPI Ctx Span)
    (L : Lib Ctx Conn) (c : Client Ctx) (ctx : Ctx) (m : Msg) (addr : String) :
    (Option Msg × Int × Err) × List (Event Ctx Span (Call Ctx Conn)) :=
  let span := (startSpan E T L ctx m.Opcode).1
  let ctx1 := (startSpan E T L ctx m.Opcode).2
  let r := (c.underlyingExchangeContext ctx1 m addr).1
  let rtt := (c.underlyingExchangeContext ctx1 m addr).2.1
  let err := (c.underlyingExchangeContext ctx1 m addr).2.2
  ((r, rtt, err),
    [Event.StartSpanFromContext ctx "dns.request" (startSpanOpts E L m.Opcode),
      Event.call (Call.ClientExchangeContext ctx1 m addr),
      Event.FinishWithOptionsExt span [FinishOption.WithError err]])

end dns

/-! ## ddtrace/tracer: the active-span binding

Of package tracer only `context_test.go` is at hand. The definitions below follow the
specification (sections 4.2, 4.5, 4.6) and the assertions of that test. -/

namespace tracer

/-- Modelled from the spec: the struct `span` of package tracer (span.go is missing), with
the fields that `context_test.go` reads and writes; "every Span owns exactly one
SpanContext". -/
structure span where
  Name : String
  Service : String
  Resource : String
  Type_ : String
  SpanID : Nat
  TraceID : Nat
  ParentID : Nat
  Start : Int
  Meta : List (String × Value)
  context : spanContext
  deriving DecidableEq, Repr

end tracer

namespace ddtrace

/-- Modelled from the spec: the interface `ddtrace.Span` (ddtrace.go is missing) with the two
implementations the test tells apart, `*ddtrace.NoopSpan` and `*span` of the tracer. -/
inductive Span
  | NoopSpan
  | span (s : tracer.span)
  deriving DecidableEq, Repr

/-- Modelled from the spec: `Span.Context()` (ddtrace.go and span.go are missing), "returns
the SpanContext for propagation to children or across a wire". -/
def Span.Context : Span → SpanContext
  | Span.NoopSpan => SpanContext.NoopSpanContext
  | Span.span s => SpanContext.spanContext s.context

end ddtrace

namespace tracer

/-- Modelled from the spec: a `context.Context` as the binding sees it (context.go of package
tracer is missing): "an immutable key/value overlay on the call-context". `nil` is the nil
context, `WithValue` a binding made by other code under its own key, `WithSpan` the binding
of the active span. -/
inductive Context
  | nil
  | Background
  | WithValue (parent : Context) (key val : String)
  | WithSpan (parent : Context) (s : Span)
  deriving DecidableEq, Repr

/-- Modelled from the spec: `ContextWithSpan` (context.go is missing), "returns a new call
context carrying span as active; does not mutate ctx". -/
def ContextWithSpan (ctx : Context) (s : Span) : Context :=
  Context.WithSpan ctx s

/-- Modelled from the spec: `SpanFromContext` (context.go is missing), "returns the bound
span, or a no-op/null span object (never nil/absent) when none is bound". -/
def SpanFromContext : Context → Span × Bool
  | Context.nil => (Span.NoopSpan, false)
  | Context.Background => (Span.NoopSpan, false)
  | Context.WithValue parent _ _ => SpanFromContext parent
  | Context.WithSpan _ s => (s, true)

/-- Whether some enclosing scope of the context binds a span. -/
def Context.spanBound : Context → Bool
  | Context.nil => false
  | Context.Background => false
  | Context.WithValue parent _ _ => parent.spanBound
  | Context.WithSpan _ _ => true

/-- The context a context was derived from. -/
def Context.parent : Context → Option Context
  | Context.nil => none
  | Context.Background => none
  | Context.WithValue parent _ _ => some parent
  | Context.WithSpan parent _ => some parent

/-- Modelled from the spec: the state of the process-wide tracer that starting a span
depends on (tracer.go is missing): whether `Start` has run and the configured service name. -/
structure tracer where
  started : Bool
  serviceName : String
  deriving DecidableEq, Repr

/-- Modelled from the spec: `ddtrace.StartSpanConfig` (ddtrace.go is missing), what the
start options fill in: "explicit parent, explicit start time, explicit tags, span type,
service/resource name overrides". -/
structure StartSpanConfig where
  Parent : Option SpanContext
  StartTime : Option Int
  Service : Option String
  Resource : Option String
  SpanType : Option String
  Tags : List (String × Value)
  deriving DecidableEq, Repr

/-- Modelled from the spec: the effect of one start option on the config (option.go of
package tracer is missing); a later option overrides an earlier one of the same kind. -/
def StartSpanConfig.apply (cfg : StartSpanConfig) : StartSpanOption → StartSpanConfig
  | StartSpanOption.ServiceName name => { cfg with Service := some name }
  | StartSpanOption.ResourceName name => { cfg with Resource := some name }
  | StartSpanOption.SpanType name => { cfg with SpanType := some name }
  | StartSpanOption.Tag k value => { cfg with Tags := cfg.Tags ++ [(k, value)] }
  | StartSpanOption.ChildOf ctx => { cfg with Parent := some ctx }
  | StartSpanOption.StartTime t => { cfg with StartTime := some t }

/-- Modelled from the spec: `StartSpan` (tracer.go is missing). Before `Start` the result is
a no-op span. Otherwise the options are applied in order; with a parent the span takes the
parent's trace identifier and has the parent's span identifier as `ParentID`, without one it
is a root span. `id` is the identifier drawn from the generator, `now` the clock. -/
def StartSpan (t : tracer) (id : Nat) (now : Int) (operationName : String)
    (opts : List StartSpanOption) : Span :=
  if !t.started then Span.NoopSpan
  else
    let cfg := opts.foldl StartSpanConfig.apply ⟨none, none, none, none, none, []⟩
    let traceID := match cfg.Parent with
      | some (SpanContext.spanContext c) => c.traceID
      | _ => id
    let parentID := match cfg.Parent with
      | some (SpanContext.spanContext c) => c.spanID
      | _ => 0
    Span.span {
      Name := operationName
      Service := cfg.Service.getD t.serviceName
      Resource := cfg.Resource.getD operationName
      Type_ := cfg.SpanType.getD ""
      SpanID := id
      TraceID := traceID
      ParentID := parentID
      Start := cfg.StartTime.getD now
      Meta := cfg.Tags
      context := ⟨traceID, id⟩ }

/-- Modelled from the spec: `StartSpanFromContext` (context.go is missing): start the span,
"bind span as active in the returned context". The order in which the parent is found is
the one `TestStartSpanFromContext` asserts ("the span in pctx takes priority"): a span bound
in the context is made the parent by a `ChildOf` option placed after the options of the
caller. -/
def StartSpanFromContext (t : tracer) (id : Nat) (now : Int) (ctx : Context)
    (operationName : String) (opts : List StartSpanOption) : Span × Context :=
  let found := SpanFromContext ctx
  let opts := if found.2 then opts ++ [StartSpanOption.ChildOf found.1.Context] else opts
  let s := StartSpan t id now operationName opts
  (s, ContextWithSpan ctx s)

end tracer

/-! ## Reading a list of calls -/

/-- Whether a start option is a tag under the key `ext.EventSampleRate`. -/
def isEventSampleRateTag (E : Ext) : StartSpanOption → Bool
  | StartSpanOption.Tag k _ => k == E.EventSampleRate
  | _ => false

/-- How many tags under the key `ext.EventSampleRate` a list of start options holds. -/
def countEventSampleRate (E : Ext) (opts : List StartSpanOption) : Nat :=
  opts.countP (isEventSampleRateTag E)

/-- Whether a start option is a `ChildOf`. -/
def isChildOf : StartSpanOption → Bool
  | StartSpanOption.ChildOf _ => true
  | _ => false

/-- The option lists of the calls of `tracer.StartSpanFromContext`, in order. -/
def startedOpts {Ctx Span Call : Type} :
    List (Event Ctx Span Call) → List (List StartSpanOption)
  | [] => []
  | Event.StartSpanFromContext _ _ opts :: es => opts :: startedOpts es
  | Event.SetTag _ _ _ :: es => startedOpts es
  | Event.Finish _ :: es => startedOpts es
  | Event.FinishWithOptionsExt _ _ :: es => startedOpts es
  | Event.call _ :: es => startedOpts es

/-- The option lists handed to `httputil.TraceAndServe`, in order. -/
def servedOpts {Ctx Span H : Type} :
    List (Event Ctx Span (nethttp.Call H)) → List (List StartSpanOption)
  | [] => []
  | Event.call (nethttp.Call.TraceAndServe _ _ _ spanopts) :: es => spanopts :: servedOpts es
  | Event.StartSpanFromContext _ _ _ :: es => servedOpts es
  | Event.SetTag _ _ _ :: es => servedOpts es
  | Event.Finish _ :: es => servedOpts es
  | Event.FinishWithOptionsExt _ _ :: es => servedOpts es

/-- The `ChildOf` options of a list of start options, in order. -/
def childOfOpts (opts : List StartSpanOption) : List StartSpanOption :=
  opts.filter isChildOf

/-- The calls into the wrapped library, in order. -/
def calls {Ctx Span Call : Type} : List (Event Ctx Span Call) → List Call
  | [] => []
  | Event.call c :: es => c :: calls es
  | Event.StartSpanFromContext _ _ _ :: es => calls es
  | Event.SetTag _ _ _ :: es => calls es
  | Event.Finish _ :: es => calls es
  | Event.FinishWithOptionsExt _ _ :: es => calls es

/-- Whether the call is `Finish` or `FinishWithOptionsExt` on a span. -/
def isFinish {Ctx Span Call : Type} : Event Ctx Span Call → Bool
  | Event.Finish _ => true
  | Event.FinishWithOptionsExt _ _ => true
  | _ => false

/-- Whether the call is `SetTag` on a span. -/
def isSetTag {Ctx Span Call : Type} : Event Ctx Span Call → Bool
  | Event.SetTag _ _ _ => true
  | _ => false

/-- The spans on which `Finish` or `FinishWithOptionsExt` is called, one entry per call. -/
def finishedSpans {Ctx Span Call : Type} : List (Event Ctx Span Call) → List Span
  | [] => []
  | Event.Finish s :: es => s :: finishedSpans es
  | Event.FinishWithOptionsExt s _ :: es => s :: finishedSpans es
  | Event.StartSpanFromContext _ _ _ :: es => finishedSpans es
  | Event.SetTag _ _ _ :: es => finishedSpans es
  | Event.call _ :: es => finishedSpans es

/-- The spans on which `SetTag` is called, one entry per call. -/
def taggedSpans {Ctx Span Call : Type} : List (Event Ctx Span Call) → List Span
  | [] => []
  | Event.SetTag s _ _ :: es => s :: taggedSpans es
  | Event.Finish _ :: es => taggedSpans es
  | Event.FinishWithOptionsExt _ _ :: es => taggedSpans es
  | Event.StartSpanFromContext _ _ _ :: es => taggedSpans es
  | Event.call _ :: es => taggedSpans es

/-- No `SetTag` call comes after a finish call. -/
def tagsBeforeFinish {Ctx Span Call : Type} : List (Event Ctx Span Call) → Bool
  | [] => true
  | e :: es => (!isFinish e || !es.any isSetTag) && tagsBeforeFinish es

/-- What is asked of a path that tags and finishes `span`: every `SetTag` and every finish
call is on `span`, no `SetTag` follows a finish call, and there is one finish call. -/
def tagsThenFinishesOnce {Ctx Span Call : Type} (span : Span)
    (events : List (Event Ctx Span Call)) : Prop :=
  (∀ s ∈ taggedSpans events, s = span) ∧ tagsBeforeFinish events = true ∧
    finishedSpans events = [span]

/-- The keys of the start tags that the adapters set next to the analytics rate;
`tagMethod` is the constant of package grpc. -/
def adapterTagKeys (E : Ext) (tagMethod : String) : List String :=
  [E.HTTPMethod, E.HTTPURL, E.TargetHost, E.TargetPort, "out.db", "redis.raw_command",
    "redis.args_length", aws.tagAWSAgent, aws.tagAWSOperation, aws.tagAWSRegion, tagMethod,
    graphql.tagGraphqlField, graphql.tagGraphqlQuery, graphql.tagGraphqlType]

/-- The rule on the analytics tag for a list `opts` of start options built under rate `r`,
where `user` are the start options configured by the caller (which the adapter passes on):
with `r > 0` the adapter has added one tag under `ext.EventSampleRate` and `opts` holds
`Tag(ext.EventSampleRate, r)`; with `r <= 0` it has added none. -/
def analyticsTagRule (E : Ext) (r : Float64) (user opts : List StartSpanOption) : Prop :=
  (r.gtZero = true →
    countEventSampleRate E opts = countEventSampleRate E user + 1 ∧
    StartSpanOption.Tag E.EventSampleRate (Value.float r) ∈ opts) ∧
  (r.leZero = true → countEventSampleRate E opts = countEventSampleRate E user)

/-- The constants of package `ext` with the values of the upstream tracer, for examples. -/
def exampleExt : Ext where
  EventSampleRate := "_dd1.sr.eausr"
  HTTPMethod := "http.method"
  HTTPURL := "http.url"
  HTTPCode := "http.status_code"
  Error := "error"
  ResourceName := "resource.name"
  DBStatement := "db.statement"
  DBType := "db.type"
  TargetHost := "out.host"
  TargetPort := "out.port"
  SpanTypeWeb := "web"
  SpanTypeSQL := "sql"
  SpanTypeRedis := "redis"
  SpanTypeHTTP := "http"
  SpanTypeDNS := "dns"
  AppTypeRPC := "rpc"

/-- A tracer for examples over `Ctx = Span = Nat`: the span of a context is its number, a
started span gets the next number, nothing is extracted. -/
def exampleTracer : TracerAPI Nat Nat where
  StartSpanFromContext := fun ctx _ _ => (ctx + 1, ctx + 1)
  SpanFromContext := fun ctx => (ctx, ctx != 0)
  Extract := fun _ => Except.error (GoError.text "empty carrier")

/-- The value of the last `ServiceName` among a list of start options. -/
def serviceNameOf : List StartSpanOption → Option String
  | [] => none
  | o :: os =>
    match serviceNameOf os with
    | some name => some name
    | none =>
      match o with
      | StartSpanOption.ServiceName name => some name
      | _ => none

/-- The value of the last `ResourceName` among a list of start options. -/
def resourceNameOf : List StartSpanOption → Option String
  | [] => none
  | o :: os =>
    match resourceNameOf os with
    | some name => some name
    | none =>
      match o with
      | StartSpanOption.ResourceName name => some name
      | _ => none

/-- The span context of the last `ChildOf` among a list of start options. -/
def parentOf : List StartSpanOption → Option SpanContext
  | [] => none
  | o :: os =>
    match parentOf os with
    | some c => some c
    | none =>
      match o with
      | StartSpanOption.ChildOf c => some c
      | _ => none

/-- The first span of `TestStartSpanFromContext`: `parent`. -/
def testParent : tracer.span :=
  ⟨"", "", "", "", 0, 0, 0, 0, [], ⟨456, 123⟩⟩

/-- The second span of `TestStartSpanFromContext`: `parent2`. -/
def testParent2 : tracer.span :=
  ⟨"", "", "", "", 0, 0, 0, 0, [], ⟨456, 789⟩⟩

/-- The call of `TestStartSpanFromContext`, on a started tracer that draws identifier 1. -/
def testStartSpanFromContext : Span × tracer.Context :=
  tracer.StartSpanFromContext ⟨true, "tracer.test"⟩ 1 0
    (tracer.ContextWithSpan tracer.Context.Background (Span.span testParent))
    "http.request"
    [StartSpanOption.ServiceName "gin", StartSpanOption.ResourceName "/",
      StartSpanOption.ChildOf (Span.span testParent2).Context]

/-- A tracer for examples whose `Extract` finds the span context with trace 456 and
span 123 in every carrier. -/
def exampleTracerExtracting : TracerAPI Nat Nat where
  StartSpanFromContext := fun ctx _ _ => (ctx + 1, ctx + 1)
  SpanFromContext := fun ctx => (ctx, ctx != 0)
  Extract := fun _ => Except.ok (SpanContext.spanContext ⟨456, 123⟩)

/-! ## contrib/gorilla/mux -/

namespace mux

/-- Go `routerConfig` of option.go. -/
structure routerConfig where
  serviceName : String
  spanOpts : List StartSpanOption
  analyticsRate : Float64
  deriving DecidableEq, Repr

/-- Go `RouterOption`. -/
abbrev RouterOption := routerConfig → routerConfig

/-- Go `defaults`; `globalRate` is what `globalconfig.AnalyticsRate()` returns. -/
def defaults (globalRate : Float64) (cfg : routerConfig) : routerConfig :=
  { cfg with analyticsRate := globalRate, serviceName := "mux.router" }

/-- Go `WithServiceName`. -/
def WithServiceName (name : String) : RouterOption :=
  fun cfg => { cfg with serviceName := name }

/-- Go `WithSpanOptions`. -/
def WithSpanOptions (opts : List StartSpanOption) : RouterOption :=
  fun cfg => { cfg with spanOpts := opts }

/-- Go `WithAnalyticsRate`. -/
def WithAnalyticsRate (rate : Float64) : RouterOption :=
  fun cfg => { cfg with analyticsRate := rate }

/-- Go `WithAnalytics(on)`. -/
def WithAnalytics (enable : Bool) : RouterOption :=
  if enable then WithAnalyticsRate Float64.one else WithAnalyticsRate Float64.zero

end mux

/-! ## contrib/julienschmidt/httprouter -/

namespace httprouter

/-- Go `routerConfig` of option.go. -/
structure routerConfig where
  serviceName : String
  spanOpts : List StartSpanOption
  analyticsRate : Float64
  deriving DecidableEq, Repr

/-- Go `RouterOption`. -/
abbrev RouterOption := routerConfig → routerConfig

/-- Go `defaults`; `globalRate` is what `globalconfig.AnalyticsRate()` returns. -/
def defaults (globalRate : Float64) (cfg : routerConfig) : routerConfig :=
  { cfg with analyticsRate := globalRate, serviceName := "http.router" }

/-- Go `WithServiceName`. -/
def WithServiceName (name : String) : RouterOption :=
  fun cfg => { cfg with serviceName := name }

/-- Go `WithSpanOptions`. -/
def WithSpanOptions (opts : List StartSpanOption) : RouterOption :=
  fun cfg => { cfg with spanOpts := opts }

/-- Go `WithAnalyticsRate`. -/
def WithAnalyticsRate (rate : Float64) : RouterOption :=
  fun cfg => { cfg with analyticsRate := rate }

/-- Go `WithAnalytics(on)`. -/
def WithAnalytics (enable : Bool) : RouterOption :=
  if enable then WithAnalyticsRate Float64.one else WithAnalyticsRate Float64.zero

end httprouter

/-! ## contrib/go-chi/chi: the options as written by the caller -/

namespace chi

/-- One option in the argument list of `Middleware(opts...)`, by the function of option.go
that made it. The type `config` is not exported, so these four functions are the only way to
make an `Option` outside the package. -/
inductive OptionCall
  | WithServiceName (name : String)
  | WithSpanOptions (opts : List StartSpanOption)
  | WithAnalytics (enable : Bool)
  | WithAnalyticsRate (rate : Float64)
  deriving DecidableEq, Repr

/-- The `Option` that the call returns. -/
def OptionCall.toOption : OptionCall → Option
  | OptionCall.WithServiceName name => chi.WithServiceName name
  | OptionCall.WithSpanOptions opts => chi.WithSpanOptions opts
  | OptionCall.WithAnalytics enable => chi.WithAnalytics enable
  | OptionCall.WithAnalyticsRate rate => chi.WithAnalyticsRate rate

/-- Whether the option is one of the two analytics options. -/
def OptionCall.isAnalytics : OptionCall → Bool
  | OptionCall.WithAnalytics _ => true
  | OptionCall.WithAnalyticsRate _ => true
  | _ => false

/-- Whether the option is a `WithServiceName`. -/
def OptionCall.isWithServiceName : OptionCall → Bool
  | OptionCall.WithServiceName _ => true
  | _ => false

end chi

/-! ## contrib/miekg/dns: the response writer -/

namespace dns

/-- Go `responseWriter`: `underlyingWriteMsg` is what the embedded `dns.ResponseWriter`
answers to `WriteMsg`, `err` is the field of that name. -/
structure responseWriter where
  underlyingWriteMsg : Msg → Err
  err : Err

/-- Go `(*responseWriter).WriteMsg`: the writer afterwards, the returned error, and the
messages passed to the embedded writer. `RcodeSuccess` and `RcodeToString` are the constant
and the table of github.com/miekg/dns. -/
def responseWriter.WriteMsg (RcodeSuccess : Int) (RcodeToString : Int → String)
    (rw : responseWriter) (msg : Msg) : (responseWriter × Err) × List Msg :=
  let rw1 := if msg.Rcode ≠ RcodeSuccess then
      { rw with err := some (GoError.text (RcodeToString msg.Rcode)) }
    else rw
  ((rw1, rw1.underlyingWriteMsg msg), [msg])

end dns

/-! ## Reading a list of calls, continued -/

/-- The option lists of the calls of `FinishWithOptionsExt`, in order; a plain `Finish`
counts with the empty list. -/
def finishOpts {Ctx Span Call : Type} :
    List (Event Ctx Span Call) → List (List FinishOption)
  | [] => []
  | Event.FinishWithOptionsExt _ opts :: es => opts :: finishOpts es
  | Event.Finish _ :: es => [] :: finishOpts es
  | Event.StartSpanFromContext _ _ _ :: es => finishOpts es
  | Event.SetTag _ _ _ :: es => finishOpts es
  | Event.call _ :: es => finishOpts es

/-- The keys and values of the `SetTag` calls, in order. -/
def setTags {Ctx Span Call : Type} : List (Event Ctx Span Call) → List (String × Value)
  | [] => []
  | Event.SetTag _ key value :: es => (key, value) :: setTags es
  | Event.Finish _ :: es => setTags es
  | Event.FinishWithOptionsExt _ _ :: es => setTags es
  | Event.StartSpanFromContext _ _ _ :: es => setTags es
  | Event.call _ :: es => setTags es

/-- Whether a finish option is a `WithError`. -/
def isWithError : FinishOption → Bool
  | FinishOption.WithError _ => true
  | FinishOption.NoDebugStack => false

/-- Whether a start option is a `ServiceName`. -/
def isServiceName : StartSpanOption → Bool
  | StartSpanOption.ServiceName _ => true
  | _ => false

/-- Whether a start option is a `StartTime`. -/
def isStartTime : StartSpanOption → Bool
  | StartSpanOption.StartTime _ => true
  | _ => false

/-- The reading of "joined with a newline between consecutive elements": the strings of the
commands with one newline between neighbours and none at the end. -/
def joinedWithNewlines (cmds : List redis.Cmder) : String :=
  "\n".intercalate (cmds.map redis.cmderToString)

/-- The strings of the commands, in order, each followed by a newline. -/
def eachFollowedByNewline : List redis.Cmder → String
  | [] => ""
  | cmd :: cmds => redis.cmderToString cmd ++ "\n" ++ eachFollowedByNewline cmds

/-- Modelled from the spec: the functions of package tracer as the adapters see them, served
by the tracer modelled above (context.go and tracer.go are missing); `Extract` stays an
argument. -/
def tracer.api (t : tracer.tracer) (id : Nat) (now : Int)
    (Extract : Carrier → Except GoError SpanContext) : TracerAPI tracer.Context Span where
  StartSpanFromContext := tracer.StartSpanFromContext t id now
  SpanFromContext := tracer.SpanFromContext
  Extract := Extract

/-- The library of google.golang.org/grpc for examples: code 0 is `OK`, a nil error has
code `OK`, any other error code 2 unless it is a status error. -/
def exampleGrpcLib : grpc.Lib where
  Code := fun err =>
    match err with
    | none => 0
    | some (GoError.status code _) => code
    | some _ => 2
  OK := 0
  CodeString := fun code => if code = 0 then "OK" else "Code(" ++ toString code ++ ")"

/-! ## Tag maps -/

namespace sql

end sql

/-! ## Theorems -/

theorem Float64.not_gtZero_of_leZero (r : Float64) (h : r.leZero = true) :
    r.gtZero = false := by
  cases r <;> simp_all [Float64.gtZero, Float64.leZero]
  rename_i neg mant exp
  cases neg <;> simp_all

theorem analyticsTagRule_of_append (E : Ext) (r : Float64)
    (base mid user : List StartSpanOption)
    (hbase : countEventSampleRate E base = 0) (hmid : countEventSampleRate E mid = 0) :
    analyticsTagRule E r user
      ((if r.gtZero then
          base ++ [StartSpanOption.Tag E.EventSampleRate (Value.float r)]
        else base) ++ mid ++ user) := by
  unfold countEventSampleRate at hbase hmid
  constructor
  · intro h
    simp only [h, countEventSampleRate, if_true, List.countP_append, hbase, hmid]
    constructor
    · simp [isEventSampleRateTag]
      omega
    · simp
  · intro h
    have h2 := Float64.not_gtZero_of_leZero r h
    simp [h2, countEventSampleRate, hbase, hmid]

theorem startedOpts_append {Ctx Span Call : Type} (l1 l2 : List (Event Ctx Span Call)) :
    startedOpts (l1 ++ l2) = startedOpts l1 ++ startedOpts l2 := by
  induction l1 with
  | nil => rfl
  | cons e es ih => cases e <;> simp [startedOpts, ih]

theorem startedOpts_map_SetTag {Ctx Span Call α : Type} (span : Span) (f : α → String)
    (g : α → Value) (l : List α) :
    startedOpts (l.map (fun a => (Event.SetTag span (f a) (g a) : Event Ctx Span Call))) = [] := by
  induction l with
  | nil => rfl
  | cons a l ih => simpa [startedOpts] using ih

theorem extract_childOf_count (E : Ext) (x : Except GoError SpanContext) :
    countEventSampleRate E
      (match x with
        | Except.ok c => [StartSpanOption.ChildOf c]
        | Except.error _ => []) = 0 := by
  cases x <;> simp [countEventSampleRate, isEventSampleRateTag]

/-- C1: in each span-start path of the adapters (aws `handlers.Send`, sql `tryTrace` when it
starts a span, chi `Middleware`, redis `execWithContext` and the process wrapper, grpc
`startSpanFromContext`, graphql `TraceQuery` and `TraceField`, net/http `ServeMux.ServeHTTP`)
there is one start call, and for the configured rate `r` its options obey the rule of the
analytics tag: with `r > 0` the adapter adds `Tag(ext.EventSampleRate, r)` once, with
`r <= 0` it adds no tag under that key. The keys of the other start tags are taken to
differ from `ext.EventSampleRate`. -/
theorem C1_analytics_tag_iff_rate_positive {Ctx Span Call H : Type} (E : Ext)
    (tagMethod : String) (hE : E.EventSampleRate ∉ adapterTagKeys E tagMethod)
    (T : TracerAPI Ctx Span) (r : Float64) :
    (∀ (h : aws.handlers) (req : aws.Request Ctx), h.cfg.analyticsRate = r →
      ∃ opts, startedOpts
          (h.Send E T req : aws.Request Ctx × List (Event Ctx Span Call)).2 = [opts] ∧
        analyticsTagRule E r [] opts) ∧
    (∀ (tp : sql.traceParams) (ctx : Ctx) (resource query : String) (startTime : Int)
        (err : Err), tp.config.analyticsRate = r → err ≠ some sql.ErrSkip →
      ∃ opts, startedOpts
          (sql.tryTrace E T tp ctx resource query startTime err :
            List (Event Ctx Span Call)) = [opts] ∧
        analyticsTagRule E r [] opts) ∧
    (∀ (StatusText : Int → String) (globalRate : Float64) (options : List chi.Option)
        (next : Ctx → chi.Served) (req : chi.Request Ctx),
      (chi.buildConfig globalRate options).analyticsRate = r →
      ∃ opts, startedOpts
          (chi.Middleware E T StatusText globalRate options next req) = [opts] ∧
        analyticsTagRule E r (chi.buildConfig globalRate options).spanOpts opts) ∧
    (∀ (c : redis.Pipeliner Ctx) (ctx : Ctx), c.params.config.analyticsRate = r →
      ∃ opts, startedOpts (c.execWithContext E T ctx).2 = [opts] ∧
        analyticsTagRule E r [] opts) ∧
    (∀ (tc : redis.Client Ctx) (oldProcess : redis.Cmder → Err) (cmd : redis.Cmder),
      tc.params.config.analyticsRate = r →
      ∃ opts, startedOpts (redis.createWrapperFromClient E T tc oldProcess cmd).2 = [opts] ∧
        analyticsTagRule E r [] opts) ∧
    (∀ (FromIncomingContext : Ctx → Header) (ctx : Ctx) (method operation service : String),
      ∃ opts, startedOpts
          (grpc.startSpanFromContext E T tagMethod FromIncomingContext ctx method operation
            service r : (Span × Ctx) × List (Event Ctx Span Call)).2 = [opts] ∧
        analyticsTagRule E r [] opts) ∧
    (∀ (t : graphql.Tracer) (ctx : Ctx) (queryString operationName : String),
      t.cfg.analyticsRate = r →
      ∃ opts, startedOpts
          (t.TraceQuery E T ctx queryString operationName :
            (Ctx × Span) × List (Event Ctx Span Call)).2 = [opts] ∧
        analyticsTagRule E r [] opts) ∧
    (∀ (t : graphql.Tracer) (ctx : Ctx) (label typeName fieldName : String) (trivial : Bool),
      t.cfg.analyticsRate = r →
      ∃ opts, startedOpts
          (t.TraceField E T ctx label typeName fieldName trivial :
            (Ctx × Span) × List (Event Ctx Span Call)).2 = [opts] ∧
        analyticsTagRule E r [] opts) ∧
    (∀ (mux : nethttp.ServeMux H) (route : String), mux.cfg.analyticsRate = r →
      ∃ opts, servedOpts
          (mux.ServeHTTP E route : List (Event Ctx Span (nethttp.Call H))) = [opts] ∧
        analyticsTagRule E r mux.cfg.spanOpts opts) := by
  simp only [adapterTagKeys, List.mem_cons, List.mem_singleton, not_or, List.not_mem_nil,
    not_false_eq_true, and_true] at hE
  obtain ⟨k1, k2, k3, k4, k5, k6, k7, k8, k9, k10, k11, k12, k13, k14⟩ := hE
  have kk1 := Ne.symm k1
  have kk2 := Ne.symm k2
  have kk3 := Ne.symm k3
  have kk4 := Ne.symm k4
  have kk5 := Ne.symm k5
  have kk6 := Ne.symm k6
  have kk7 := Ne.symm k7
  have kk8 := Ne.symm k8
  have kk9 := Ne.symm k9
  have kk10 := Ne.symm k10
  have kk11 := Ne.symm k11
  have kk12 := Ne.symm k12
  have kk13 := Ne.symm k13
  have kk14 := Ne.symm k14
  refine ⟨?_, ?_, ?_, ?_, ?_, ?_, ?_, ?_, ?_⟩
  · intro h req hr
    refine ⟨_, rfl, ?_⟩
    have := analyticsTagRule_of_append E r
      [StartSpanOption.SpanType E.SpanTypeHTTP,
        StartSpanOption.ServiceName (h.serviceName req),
        StartSpanOption.ResourceName (h.resourceName req),
        StartSpanOption.Tag aws.tagAWSAgent (Value.str (h.awsAgent req)),
        StartSpanOption.Tag aws.tagAWSOperation (Value.str (h.awsOperation req)),
        StartSpanOption.Tag aws.tagAWSRegion (Value.str (h.awsRegion req)),
        StartSpanOption.Tag E.HTTPMethod (Value.str req.OperationHTTPMethod),
        StartSpanOption.Tag E.HTTPURL (Value.str req.URL)] [] []
      (by simp [countEventSampleRate, isEventSampleRateTag, *]) rfl
    simpa [hr] using this
  · intro tp ctx resource query startTime err hr herr
    refine ⟨(if r.gtZero then
        [StartSpanOption.SpanType E.SpanTypeSQL,
          StartSpanOption.ServiceName tp.config.serviceName,
          StartSpanOption.StartTime startTime]
          ++ [StartSpanOption.Tag E.EventSampleRate (Value.float r)]
      else [StartSpanOption.SpanType E.SpanTypeSQL,
          StartSpanOption.ServiceName tp.config.serviceName,
          StartSpanOption.StartTime startTime]) ++ [] ++ [], ?_, ?_⟩
    · simp only [sql.tryTrace, if_neg herr, hr, startedOpts_append, startedOpts_map_SetTag]
      by_cases hq : query = "" <;> simp [hq, startedOpts]
    · exact analyticsTagRule_of_append E r _ [] []
        (by simp [countEventSampleRate, isEventSampleRateTag]) rfl
  · intro StatusText globalRate options next req hr
    refine ⟨chi.startOpts E T (chi.buildConfig globalRate options) req, ?_, ?_⟩
    · simp only [chi.Middleware, chi.handler, List.cons_append, List.nil_append, startedOpts,
        startedOpts_append]
      split <;> simp [startedOpts]
    · have := analyticsTagRule_of_append E r
        [StartSpanOption.SpanType E.SpanTypeWeb,
          StartSpanOption.ServiceName (chi.buildConfig globalRate options).serviceName,
          StartSpanOption.Tag E.HTTPMethod (Value.str req.Method),
          StartSpanOption.Tag E.HTTPURL (Value.str req.URLPath)]
        (match T.Extract (Carrier.HTTPHeadersCarrier req.Header) with
          | Except.ok c => [StartSpanOption.ChildOf c]
          | Except.error _ => [])
        (chi.buildConfig globalRate options).spanOpts
        (by simp [countEventSampleRate, isEventSampleRateTag, *])
        (extract_childOf_count E _)
      simp only [chi.startOpts, hr]
      cases hx : T.Extract (Carrier.HTTPHeadersCarrier req.Header) <;>
        simpa [hx] using this
  · intro c ctx hr
    refine ⟨_, rfl, ?_⟩
    have := analyticsTagRule_of_append E r
      [StartSpanOption.SpanType E.SpanTypeRedis,
        StartSpanOption.ServiceName c.params.config.serviceName,
        StartSpanOption.ResourceName "redis",
        StartSpanOption.Tag E.TargetHost (Value.str c.params.host),
        StartSpanOption.Tag E.TargetPort (Value.str c.params.port),
        StartSpanOption.Tag "out.db" (Value.str c.params.db)] [] []
      (by simp [countEventSampleRate, isEventSampleRateTag, *]) rfl
    simpa [hr] using this
  · intro tc oldProcess cmd hr
    refine ⟨_, rfl, ?_⟩
    have := analyticsTagRule_of_append E r
      [StartSpanOption.SpanType E.SpanTypeRedis,
        StartSpanOption.ServiceName tc.params.config.serviceName,
        StartSpanOption.ResourceName (((redis.cmderToString cmd).splitOn " ").headD ""),
        StartSpanOption.Tag E.TargetHost (Value.str tc.params.host),
        StartSpanOption.Tag E.TargetPort (Value.str tc.params.port),
        StartSpanOption.Tag "out.db" (Value.str tc.params.db),
        StartSpanOption.Tag "redis.raw_command" (Value.str (redis.cmderToString cmd)),
        StartSpanOption.Tag "redis.args_length"
          (Value.str (Itoa ((((redis.cmderToString cmd).splitOn " ").length : Int) - 1)))]
      [] []
      (by simp [countEventSampleRate, isEventSampleRateTag, *]) rfl
    simpa [hr] using this
  · intro FromIncomingContext ctx method operation service
    refine ⟨_, rfl, ?_⟩
    have := analyticsTagRule_of_append E r
      [StartSpanOption.ServiceName service,
        StartSpanOption.ResourceName method,
        StartSpanOption.Tag tagMethod (Value.str method),
        StartSpanOption.SpanType E.AppTypeRPC]
      (match T.Extract (Carrier.MDCarrier (FromIncomingContext ctx)) with
        | Except.ok c => [StartSpanOption.ChildOf c]
        | Except.error _ => [])
      []
      (by simp [countEventSampleRate, isEventSampleRateTag, *])
      (extract_childOf_count E _)
    cases hx : T.Extract (Carrier.MDCarrier (FromIncomingContext ctx)) <;>
      simpa [hx] using this
  · intro t ctx queryString operationName hr
    refine ⟨_, rfl, ?_⟩
    have := analyticsTagRule_of_append E r
      [StartSpanOption.ServiceName t.cfg.serviceName,
        StartSpanOption.Tag graphql.tagGraphqlQuery (Value.str queryString)] [] []
      (by simp [countEventSampleRate, isEventSampleRateTag, *]) rfl
    simpa [hr] using this
  · intro t ctx label typeName fieldName trivial hr
    refine ⟨_, rfl, ?_⟩
    have := analyticsTagRule_of_append E r
      [StartSpanOption.ServiceName t.cfg.serviceName,
        StartSpanOption.Tag graphql.tagGraphqlField (Value.str fieldName),
        StartSpanOption.Tag graphql.tagGraphqlType (Value.str typeName)] [] []
      (by simp [countEventSampleRate, isEventSampleRateTag, *]) rfl
    simpa [hr] using this
  · intro mux route hr
    refine ⟨_, rfl, ?_⟩
    have h0 := analyticsTagRule_of_append E r [] [] mux.cfg.spanOpts rfl rfl
    have h1 : ∀ (l : List StartSpanOption),
        analyticsTagRule E r mux.cfg.spanOpts l →
        ∀ l2, countEventSampleRate E l2 = countEventSampleRate E l →
          (StartSpanOption.Tag E.EventSampleRate (Value.float r) ∈ l →
            StartSpanOption.Tag E.EventSampleRate (Value.float r) ∈ l2) →
          analyticsTagRule E r mux.cfg.spanOpts l2 := by
      intro l hl l2 hc hm
      refine ⟨fun h => ?_, fun h => ?_⟩
      · exact ⟨hc.trans (hl.1 h).1, hm (hl.1 h).2⟩
      · exact hc.trans (hl.2 h)
    refine h1 _ h0 _ ?_ ?_
    · by_cases hg : r.gtZero = true <;>
        simp [hr, hg, countEventSampleRate, List.countP_append, List.countP_cons, Nat.add_comm]
    · by_cases hg : r.gtZero = true <;> simp [hr, hg]

/-- The rule of C1 at work: a redis client configured with rate 1.0 runs `GET k` through the
process wrapper. -/
theorem C1_analytics_tag_iff_rate_positive_witness :
    exampleExt.EventSampleRate ∉ adapterTagKeys exampleExt "grpc.method" ∧
    ∃ opts, startedOpts
        (redis.createWrapperFromClient exampleExt exampleTracer
          ⟨⟨"localhost", "6379", "0", ⟨"redis", Float64.one⟩⟩, 0⟩ (fun _ => none)
          ⟨redis.StringMethod.Stringer "GET k", []⟩).2 = [opts] ∧
      analyticsTagRule exampleExt Float64.one [] opts :=
  ⟨by decide,
    (@C1_analytics_tag_iff_rate_positive Nat Nat Unit Unit exampleExt "grpc.method"
      (by decide) exampleTracer Float64.one).2.2.2.2.1
      ⟨⟨"localhost", "6379", "0", ⟨"redis", Float64.one⟩⟩, 0⟩ (fun _ => none)
      ⟨redis.StringMethod.Stringer "GET k", []⟩ rfl⟩

/-- C7: the handler built by `WrapHandler` hands to `httputil.TraceAndServe` the configured
span options and nothing else, whatever the analytics rate. With `WithAnalyticsRate(1.0)`
or `WithAnalytics(true)` as the only option the list is empty, so it holds no
`Tag(ext.EventSampleRate, 1.0)`, while a `ServeMux` built with the same option hands over
exactly that tag. -/
theorem C7_WrapHandler_ignores_analytics_rate {Ctx Span H : Type} (E : Ext)
    (globalRate : Float64) (h : H) (service resource : String) :
    (∀ options : List nethttp.Option,
      servedOpts (nethttp.WrapHandler globalRate h service resource options :
          List (Event Ctx Span (nethttp.Call H))) =
        [(nethttp.buildConfig globalRate options).spanOpts]) ∧
    servedOpts (nethttp.WrapHandler globalRate h service resource
        [nethttp.WithAnalyticsRate Float64.one] :
          List (Event Ctx Span (nethttp.Call H))) = [[]] ∧
    servedOpts (nethttp.WrapHandler globalRate h service resource
        [nethttp.WithAnalytics true] :
          List (Event Ctx Span (nethttp.Call H))) = [[]] ∧
    servedOpts ((nethttp.NewServeMux globalRate h
        [nethttp.WithAnalyticsRate Float64.one]).ServeHTTP E resource :
          List (Event Ctx Span (nethttp.Call H))) =
      [[StartSpanOption.Tag E.EventSampleRate (Value.float Float64.one)]] ∧
    servedOpts ((nethttp.NewServeMux globalRate h
        [nethttp.WithAnalytics true]).ServeHTTP E resource :
          List (Event Ctx Span (nethttp.Call H))) =
      [[StartSpanOption.Tag E.EventSampleRate (Value.float Float64.one)]] := by
  refine ⟨fun _ => rfl, rfl, rfl, ?_, ?_⟩ <;>
    simp [nethttp.NewServeMux, nethttp.ServeMux.ServeHTTP, nethttp.buildConfig,
      nethttp.WithAnalytics, nethttp.WithAnalyticsRate, nethttp.defaults, nethttp.newConfig,
      servedOpts, Float64.one, Float64.gtZero]

/-- C8: chi `Middleware` and grpc `startSpanFromContext` start their span whatever
`tracer.Extract` answers, and nothing of the answer but the span context reaches the caller.
When `Extract` returns a span context without error, the adapter adds `ChildOf` of that
context and no other `ChildOf`; when it returns an error, the adapter adds none. (In chi the
`ChildOf` options among the configured span options follow; grpc has no such options.) -/
theorem C8_childOf_iff_extract_ok {Ctx Span Call : Type} (E : Ext) (T : TracerAPI Ctx Span) :
    (∀ (StatusText : Int → String) (globalRate : Float64) (options : List chi.Option)
        (next : Ctx → chi.Served) (req : chi.Request Ctx),
      ∃ opts, startedOpts
          (chi.Middleware E T StatusText globalRate options next req) = [opts] ∧
        (∀ spanctx, T.Extract (Carrier.HTTPHeadersCarrier req.Header) = Except.ok spanctx →
          childOfOpts opts = StartSpanOption.ChildOf spanctx ::
            childOfOpts (chi.buildConfig globalRate options).spanOpts) ∧
        (∀ err, T.Extract (Carrier.HTTPHeadersCarrier req.Header) = Except.error err →
          childOfOpts opts = childOfOpts (chi.buildConfig globalRate options).spanOpts)) ∧
    (∀ (tagMethod : String) (FromIncomingContext : Ctx → Header) (ctx : Ctx)
        (method operation service : String) (rate : Float64),
      ∃ opts, startedOpts
          (grpc.startSpanFromContext E T tagMethod FromIncomingContext ctx method operation
            service rate : (Span × Ctx) × List (Event Ctx Span Call)).2 = [opts] ∧
        (grpc.startSpanFromContext E T tagMethod FromIncomingContext ctx method operation
            service rate : (Span × Ctx) × List (Event Ctx Span Call)).1 =
          T.StartSpanFromContext ctx operation opts ∧
        (∀ sctx, T.Extract (Carrier.MDCarrier (FromIncomingContext ctx)) = Except.ok sctx →
          childOfOpts opts = [StartSpanOption.ChildOf sctx]) ∧
        (∀ err, T.Extract (Carrier.MDCarrier (FromIncomingContext ctx)) = Except.error err →
          childOfOpts opts = [])) := by
  constructor
  · intro StatusText globalRate options next req
    refine ⟨chi.startOpts E T (chi.buildConfig globalRate options) req, ?_, ?_, ?_⟩
    · simp only [chi.Middleware, chi.handler, List.cons_append, List.nil_append, startedOpts,
        startedOpts_append]
      split <;> simp [startedOpts]
    · intro spanctx hx
      by_cases hg : (chi.buildConfig globalRate options).analyticsRate.gtZero = true <;>
        simp [chi.startOpts, hx, hg, childOfOpts, isChildOf, List.filter_cons]
    · intro err hx
      by_cases hg : (chi.buildConfig globalRate options).analyticsRate.gtZero = true <;>
        simp [chi.startOpts, hx, hg, childOfOpts, isChildOf, List.filter_cons]
  · intro tagMethod FromIncomingContext ctx method operation service rate
    refine ⟨_, rfl, rfl, ?_, ?_⟩
    · intro sctx hx
      by_cases hg : rate.gtZero = true <;>
        simp [hx, hg, childOfOpts, isChildOf, List.filter_cons]
    · intro err hx
      by_cases hg : rate.gtZero = true <;>
        simp [hx, hg, childOfOpts, isChildOf, List.filter_cons]

/-- C8 at work: a gRPC call whose metadata carry the span context (456, 123). -/
theorem C8_childOf_iff_extract_ok_witness :
    ∃ opts, startedOpts
        (grpc.startSpanFromContext exampleExt exampleTracerExtracting "grpc.method"
          (fun _ => []) 0 "/grpc.Fixture/Ping" "grpc.server" "grpc-service" Float64.zero :
            (Nat × Nat) × List (Event Nat Nat Unit)).2 = [opts] ∧
      childOfOpts opts = [StartSpanOption.ChildOf (SpanContext.spanContext ⟨456, 123⟩)] := by
  obtain ⟨opts, h1, _, h3, _⟩ :=
    (@C8_childOf_iff_extract_ok Nat Nat Unit exampleExt exampleTracerExtracting).2
      "grpc.method" (fun _ => []) 0 "/grpc.Fixture/Ping" "grpc.server" "grpc-service"
      Float64.zero
  exact ⟨opts, h1, h3 _ rfl⟩

theorem finishedSpans_append {Ctx Span Call : Type} (l1 l2 : List (Event Ctx Span Call)) :
    finishedSpans (l1 ++ l2) = finishedSpans l1 ++ finishedSpans l2 := by
  induction l1 with
  | nil => rfl
  | cons e es ih => cases e <;> simp [finishedSpans, ih]

theorem taggedSpans_append {Ctx Span Call : Type} (l1 l2 : List (Event Ctx Span Call)) :
    taggedSpans (l1 ++ l2) = taggedSpans l1 ++ taggedSpans l2 := by
  induction l1 with
  | nil => rfl
  | cons e es ih => cases e <;> simp [taggedSpans, ih]

theorem taggedSpans_map_SetTag {Ctx Span Call α : Type} (span : Span) (f : α → String)
    (g : α → Value) (l : List α) :
    taggedSpans (l.map (fun a => (Event.SetTag span (f a) (g a) : Event Ctx Span Call))) =
      l.map (fun _ => span) := by
  induction l with
  | nil => rfl
  | cons a l ih => simpa [taggedSpans] using ih

theorem finishedSpans_of_no_finish {Ctx Span Call : Type} (l : List (Event Ctx Span Call))
    (h : ∀ e ∈ l, isFinish e = false) : finishedSpans l = [] := by
  induction l with
  | nil => rfl
  | cons e es ih =>
    have he := h e (List.mem_cons_self _ _)
    have hes := ih (fun x hx => h x (List.mem_cons_of_mem _ hx))
    cases e <;> simp_all [finishedSpans, isFinish]

theorem tagsBeforeFinish_of_no_finish {Ctx Span Call : Type}
    (l : List (Event Ctx Span Call)) (fin : Event Ctx Span Call)
    (h : ∀ e ∈ l, isFinish e = false) : tagsBeforeFinish (l ++ [fin]) = true := by
  induction l with
  | nil => simp [tagsBeforeFinish]
  | cons e es ih =>
    have he := h e (List.mem_cons_self _ _)
    have hes := ih (fun x hx => h x (List.mem_cons_of_mem _ hx))
    simp [tagsBeforeFinish, he, hes]

theorem tagsThenFinishesOnce_of_prefix {Ctx Span Call : Type} (span : Span)
    (pre : List (Event Ctx Span Call)) (fin : Event Ctx Span Call)
    (hpre : ∀ e ∈ pre, isFinish e = false) (htag : ∀ s ∈ taggedSpans pre, s = span)
    (hfin : fin = Event.Finish span ∨ ∃ o, fin = Event.FinishWithOptionsExt span o) :
    tagsThenFinishesOnce span (pre ++ [fin]) := by
  refine ⟨?_, ?_, ?_⟩
  · intro s hs
    rw [taggedSpans_append] at hs
    rcases hfin with rfl | ⟨o, rfl⟩ <;> simp [taggedSpans] at hs <;> exact htag s hs
  · exact tagsBeforeFinish_of_no_finish _ _ hpre
  · rw [finishedSpans_append, finishedSpans_of_no_finish _ hpre]
    rcases hfin with rfl | ⟨o, rfl⟩ <;> rfl

/-- C9 as stated fails for aws `handlers.Complete`: for a request whose context binds no
span the handler returns at once, so the span handed back by `SpanFromContext` is finished
zero times. -/
theorem C9_counterexample_aws_Complete_without_span :
    (exampleTracer.SpanFromContext 0).2 = false ∧
    finishedSpans
      (aws.handlers.Complete exampleExt exampleTracer ⟨⟨"", Float64.zero⟩⟩
        ⟨"s3", "us-east-1", "GetObject", "GET", "", "http://s3/", some 200, none, 0⟩ :
          List (Event Nat Nat Unit)) = [] ∧
    ¬ tagsThenFinishesOnce (exampleTracer.SpanFromContext 0).1
      (aws.handlers.Complete exampleExt exampleTracer ⟨⟨"", Float64.zero⟩⟩
        ⟨"s3", "us-east-1", "GetObject", "GET", "", "http://s3/", some 200, none, 0⟩ :
          List (Event Nat Nat Unit)) := by
  refine ⟨rfl, rfl, ?_⟩
  intro h
  have h3 := h.2.2
  simp [aws.handlers.Complete, exampleTracer, finishedSpans] at h3

/-- C9, amended: chi `Middleware`, grpc `finishWithError` and redis `execWithContext` make
all their `SetTag` calls before their one finish call, all on the span of the path; sql
`tryTrace` does so when `err` is not `driver.ErrSkip` and aws `handlers.Complete` does so
when `SpanFromContext` found a span. On `driver.ErrSkip`, and in `Complete` without a bound
span, no call is made at all. -/
theorem C9_tags_before_single_finish {Ctx Span Call : Type} (E : Ext)
    (T : TracerAPI Ctx Span) :
    (∀ (StatusText : Int → String) (globalRate : Float64) (options : List chi.Option)
        (next : Ctx → chi.Served) (req : chi.Request Ctx),
      tagsThenFinishesOnce
        (T.StartSpanFromContext req.ctx "http.request"
          (chi.startOpts E T (chi.buildConfig globalRate options) req)).1
        (chi.Middleware E T StatusText globalRate options next req)) ∧
    (∀ (L : grpc.Lib) (tagCode : String) (span : Span) (err : Err) (cfg : grpc.config),
      tagsThenFinishesOnce span
        (grpc.finishWithError L tagCode span err cfg : List (Event Ctx Span Call))) ∧
    (∀ (tp : sql.traceParams) (ctx : Ctx) (resource query : String) (startTime : Int)
        (err : Err),
      (err ≠ some sql.ErrSkip →
        ∃ opts, startedOpts (sql.tryTrace E T tp ctx resource query startTime err :
            List (Event Ctx Span Call)) = [opts] ∧
          tagsThenFinishesOnce (T.StartSpanFromContext ctx resource opts).1
            (sql.tryTrace E T tp ctx resource query startTime err :
              List (Event Ctx Span Call))) ∧
      (err = some sql.ErrSkip →
        (sql.tryTrace E T tp ctx resource query startTime err :
          List (Event Ctx Span Call)) = [])) ∧
    (∀ (h : aws.handlers) (req : aws.Request Ctx),
      ((T.SpanFromContext req.ctx).2 = true →
        tagsThenFinishesOnce (T.SpanFromContext req.ctx).1
          (h.Complete E T req : List (Event Ctx Span Call))) ∧
      ((T.SpanFromContext req.ctx).2 = false →
        (h.Complete E T req : List (Event Ctx Span Call)) = [])) ∧
    (∀ (c : redis.Pipeliner Ctx) (ctx : Ctx),
      ∃ opts, startedOpts (c.execWithContext E T ctx).2 = [opts] ∧
        tagsThenFinishesOnce (T.StartSpanFromContext ctx "redis.command" opts).1
          (c.execWithContext E T ctx).2) := by
  refine ⟨?_, ?_, ?_, ?_, ?_⟩
  · intro StatusText globalRate options next req
    simp only [chi.Middleware, chi.handler]
    apply tagsThenFinishesOnce_of_prefix
    · intro e he
      simp only [List.mem_append, List.mem_cons, List.mem_singleton, List.not_mem_nil,
        or_false] at he
      rcases he with (rfl | rfl | rfl | rfl) | he
      · rfl
      · rfl
      · rfl
      · rfl
      · split at he
        · rw [List.mem_singleton] at he
          subst he
          rfl
        · cases he
    · intro s hs
      rw [taggedSpans_append] at hs
      simp only [taggedSpans, List.mem_append, List.mem_cons, List.mem_singleton,
        List.not_mem_nil, or_false] at hs
      rcases hs with (rfl | rfl) | hs
      · rfl
      · rfl
      · split at hs
        · simpa [taggedSpans] using hs
        · cases hs
    · exact Or.inl rfl
  · intro L tagCode span err cfg
    simp only [grpc.finishWithError]
    exact tagsThenFinishesOnce_of_prefix span [_] _
      (by intro e he; rw [List.mem_singleton] at he; subst he; rfl)
      (by intro s hs; simpa [taggedSpans] using hs)
      (Or.inr ⟨_, rfl⟩)
  · intro tp ctx resource query startTime err
    constructor
    · intro herr
      refine ⟨if tp.config.analyticsRate.gtZero then
          [StartSpanOption.SpanType E.SpanTypeSQL,
            StartSpanOption.ServiceName tp.config.serviceName,
            StartSpanOption.StartTime startTime]
            ++ [StartSpanOption.Tag E.EventSampleRate (Value.float tp.config.analyticsRate)]
        else [StartSpanOption.SpanType E.SpanTypeSQL,
            StartSpanOption.ServiceName tp.config.serviceName,
            StartSpanOption.StartTime startTime], ?_, ?_⟩
      · simp only [sql.tryTrace, if_neg herr, startedOpts_append, startedOpts_map_SetTag]
        by_cases hq : query = "" <;> simp [hq, startedOpts]
      · simp only [sql.tryTrace, if_neg herr]
        rw [show ∀ (a b c d : List (Event Ctx Span Call)) (x y : Event Ctx Span Call),
          a ++ b ++ c ++ d ++ [x, y] = (a ++ b ++ c ++ d ++ [x]) ++ [y] from by simp]
        apply tagsThenFinishesOnce_of_prefix
        · intro e he
          simp only [List.mem_append, List.mem_cons, List.mem_singleton, List.not_mem_nil,
            or_false, List.mem_map] at he
          rcases he with (((rfl | he) | rfl) | ⟨kv, _, rfl⟩) | rfl
          · rfl
          · split at he
            · rw [List.mem_singleton] at he
              subst he
              rfl
            · cases he
          · rfl
          · rfl
          · rfl
        · intro s hs
          rw [taggedSpans_append, taggedSpans_append, taggedSpans_append, taggedSpans_append,
            taggedSpans_map_SetTag] at hs
          simp only [List.mem_append, List.mem_map] at hs
          rcases hs with (((hs | hs) | hs) | ⟨_, _, rfl⟩) | hs
          · simp [taggedSpans] at hs
          · split at hs
            · simpa [taggedSpans] using hs
            · cases hs
          · simpa [taggedSpans] using hs
          · rfl
          · simpa [taggedSpans] using hs
        · exact Or.inr ⟨_, rfl⟩
    · intro herr
      simp [sql.tryTrace, herr]
  · intro h req
    constructor
    · intro hok
      simp only [aws.handlers.Complete, hok, Bool.not_true, Bool.false_eq_true, if_false]
      apply tagsThenFinishesOnce_of_prefix
      · intro e he
        cases hresp : req.HTTPResponse <;> rw [hresp] at he
        · cases he
        · rw [List.mem_singleton] at he
          subst he
          rfl
      · intro s hs
        cases hresp : req.HTTPResponse <;> rw [hresp] at hs
        · cases hs
        · simpa [taggedSpans] using hs
      · exact Or.inr ⟨_, rfl⟩
    · intro hok
      simp [aws.handlers.Complete, hok]
  · intro c ctx
    refine ⟨_, rfl, ?_⟩
    simp only [redis.Pipeliner.execWithContext]
    exact tagsThenFinishesOnce_of_prefix _ [_, _, _, _] _
      (by
        intro e he
        simp only [List.mem_cons, List.mem_singleton, List.not_mem_nil, or_false] at he
        rcases he with rfl | rfl | rfl | rfl <;> rfl)
      (by intro s hs; simp [taggedSpans] at hs; exact hs)
      (Or.inr ⟨_, rfl⟩)

/-- C9 (amended) at work: `tryTrace` of a query that ended without error. -/
theorem C9_tags_before_single_finish_witness :
    (none : Err) ≠ some sql.ErrSkip ∧
    ∃ opts, startedOpts
        (sql.tryTrace exampleExt exampleTracer
          ⟨⟨"postgres.db", Float64.zero⟩, "postgres", "", [("db.user", "bob")]⟩
          0 "Query" "SELECT 1" 0 none : List (Event Nat Nat Unit)) = [opts] ∧
      tagsThenFinishesOnce (exampleTracer.StartSpanFromContext 0 "Query" opts).1
        (sql.tryTrace exampleExt exampleTracer
          ⟨⟨"postgres.db", Float64.zero⟩, "postgres", "", [("db.user", "bob")]⟩
          0 "Query" "SELECT 1" 0 none : List (Event Nat Nat Unit)) :=
  ⟨by decide,
    ((@C9_tags_before_single_finish Nat Nat Unit exampleExt exampleTracer).2.2.1
      ⟨⟨"postgres.db", Float64.zero⟩, "postgres", "", [("db.user", "bob")]⟩
      0 "Query" "SELECT 1" 0 none).1 (by decide)⟩

/-- C10: the redis process wrapper calls `oldProcess` once, with the command it was given,
and returns the error of that call, `redis.Nil` included; `execWithContext` calls the
embedded `Exec` once and returns its commands and error; the dns wrappers `Exchange`,
`ExchangeConn`, `ExchangeContext` and the two `Client` methods call the function they wrap
once, with the message and address (or connection) they were given, and return its
results. `ExchangeContext` passes on the context returned by `startSpan`. -/
theorem C10_wrappers_return_underlying_result {Ctx Span Conn : Type} (E : Ext)
    (T : TracerAPI Ctx Span) :
    (∀ (tc : redis.Client Ctx) (oldProcess : redis.Cmder → Err) (cmd : redis.Cmder),
      (redis.createWrapperFromClient E T tc oldProcess cmd).1 = oldProcess cmd ∧
      calls (redis.createWrapperFromClient E T tc oldProcess cmd).2 =
        [redis.Call.oldProcess cmd]) ∧
    (∀ (c : redis.Pipeliner Ctx) (ctx : Ctx),
      (c.execWithContext E T ctx).1 = c.underlyingExec ∧
      calls (c.execWithContext E T ctx).2 = [redis.Call.Exec]) ∧
    (∀ (L : dns.Lib Ctx Conn) (Background : Ctx) (m : dns.Msg) (addr : String),
      (dns.Exchange E T L Background m addr).1 = L.Exchange m addr ∧
      calls (dns.Exchange E T L Background m addr).2 = [dns.Call.Exchange m addr]) ∧
    (∀ (L : dns.Lib Ctx Conn) (Background : Ctx) (c : Conn) (m : dns.Msg),
      (dns.ExchangeConn E T L Background c m).1 = L.ExchangeConn c m ∧
      calls (dns.ExchangeConn E T L Background c m).2 = [dns.Call.ExchangeConn c m]) ∧
    (∀ (L : dns.Lib Ctx Conn) (ctx : Ctx) (m : dns.Msg) (addr : String),
      (dns.ExchangeContext E T L ctx m addr).1 =
        L.ExchangeContext (dns.startSpan E T L ctx m.Opcode).2 m addr ∧
      calls (dns.ExchangeContext E T L ctx m addr).2 =
        [dns.Call.ExchangeContext (dns.startSpan E T L ctx m.Opcode).2 m addr]) ∧
    (∀ (L : dns.Lib Ctx Conn) (Background : Ctx) (c : dns.Client Ctx) (m : dns.Msg)
        (addr : String),
      (c.Exchange E T L Background m addr).1 = c.underlyingExchange m addr ∧
      calls (c.Exchange E T L Background m addr).2 =
        [dns.Call.ClientExchange m addr]) ∧
    (∀ (L : dns.Lib Ctx Conn) (c : dns.Client Ctx) (ctx : Ctx) (m : dns.Msg) (addr : String),
      (c.ExchangeContext E T L ctx m addr).1 =
        c.underlyingExchangeContext (dns.startSpan E T L ctx m.Opcode).2 m addr ∧
      calls (c.ExchangeContext E T L ctx m addr).2 =
        [dns.Call.ClientExchangeContext (dns.startSpan E T L ctx m.Opcode).2 m addr]) := by
  refine ⟨?_, ?_, ?_, ?_, ?_, ?_, ?_⟩ <;> intros <;> exact ⟨rfl, rfl⟩

theorem foldl_apply_Service (opts : List StartSpanOption) (cfg : tracer.StartSpanConfig) :
    (opts.foldl tracer.StartSpanConfig.apply cfg).Service =
      (match serviceNameOf opts with
        | some name => some name
        | none => cfg.Service) := by
  induction opts generalizing cfg with
  | nil => rfl
  | cons o os ih =>
    rw [List.foldl_cons, ih]
    cases h : serviceNameOf os <;> cases o <;> simp [serviceNameOf, h, tracer.StartSpanConfig.apply]

theorem foldl_apply_Resource (opts : List StartSpanOption) (cfg : tracer.StartSpanConfig) :
    (opts.foldl tracer.StartSpanConfig.apply cfg).Resource =
      (match resourceNameOf opts with
        | some name => some name
        | none => cfg.Resource) := by
  induction opts generalizing cfg with
  | nil => rfl
  | cons o os ih =>
    rw [List.foldl_cons, ih]
    cases h : resourceNameOf os <;> cases o <;> simp [resourceNameOf, h, tracer.StartSpanConfig.apply]

theorem foldl_apply_Parent (opts : List StartSpanOption) (cfg : tracer.StartSpanConfig) :
    (opts.foldl tracer.StartSpanConfig.apply cfg).Parent =
      (match parentOf opts with
        | some c => some c
        | none => cfg.Parent) := by
  induction opts generalizing cfg with
  | nil => rfl
  | cons o os ih =>
    rw [List.foldl_cons, ih]
    cases h : parentOf os <;> cases o <;> simp [parentOf, h, tracer.StartSpanConfig.apply]

theorem serviceNameOf_append_ChildOf (opts : List StartSpanOption) (c : SpanContext) :
    serviceNameOf (opts ++ [StartSpanOption.ChildOf c]) = serviceNameOf opts := by
  induction opts with
  | nil => rfl
  | cons o os ih => simp [serviceNameOf, ih]

theorem resourceNameOf_append_ChildOf (opts : List StartSpanOption) (c : SpanContext) :
    resourceNameOf (opts ++ [StartSpanOption.ChildOf c]) = resourceNameOf opts := by
  induction opts with
  | nil => rfl
  | cons o os ih => simp [resourceNameOf, ih]

theorem parentOf_append_ChildOf (opts : List StartSpanOption) (c : SpanContext) :
    parentOf (opts ++ [StartSpanOption.ChildOf c]) = some c := by
  induction opts with
  | nil => rfl
  | cons o os ih => simp [parentOf, ih]

theorem StartSpan_started (t : tracer.tracer) (ht : t.started = true) (id : Nat) (now : Int)
    (operationName : String) (opts : List StartSpanOption) :
    ∃ child, tracer.StartSpan t id now operationName opts = Span.span child ∧
      child.Name = operationName ∧
      (∀ name, serviceNameOf opts = some name → child.Service = name) ∧
      (∀ name, resourceNameOf opts = some name → child.Resource = name) ∧
      (∀ c, parentOf opts = some (SpanContext.spanContext c) →
        child.TraceID = c.traceID ∧ child.ParentID = c.spanID) ∧
      (parentOf opts = none → child.TraceID = id ∧ child.ParentID = 0) := by
  refine ⟨_, by simp only [tracer.StartSpan, ht, Bool.not_true, Bool.false_eq_true, if_false]; rfl,
    rfl, ?_, ?_, ?_, ?_⟩
  · intro name h
    simp [foldl_apply_Service, h]
  · intro name h
    simp [foldl_apply_Resource, h]
  · intro c h
    simp [foldl_apply_Parent, h]
  · intro h
    simp [foldl_apply_Parent, h]

/-- C2: on a started tracer, when the context carries the active span P (bound with
`ContextWithSpan`) and the options hold `ChildOf(Q.Context())`, the span in the context
takes priority: the started span has the trace identifier of P and P's span identifier as
`ParentID`, hence not Q's when the two differ. -/
theorem C2_span_in_context_takes_priority (t : tracer.tracer) (ht : t.started = true)
    (id : Nat) (now : Int) (ctx : tracer.Context) (P Q : tracer.span) (name : String)
    (opts : List StartSpanOption)
    (_hQ : StartSpanOption.ChildOf (Span.span Q).Context ∈ opts) :
    ∃ child,
      (tracer.StartSpanFromContext t id now (tracer.ContextWithSpan ctx (Span.span P)) name
        opts).1 = Span.span child ∧
      child.TraceID = P.context.traceID ∧ child.ParentID = P.context.spanID ∧
      (P.context.spanID ≠ Q.context.spanID → child.ParentID ≠ Q.context.spanID) := by
  obtain ⟨child, h1, _, _, _, h5, _⟩ := StartSpan_started t ht id now name
    (opts ++ [StartSpanOption.ChildOf (Span.span P).Context])
  have h := h5 P.context (parentOf_append_ChildOf _ _)
  refine ⟨child, ?_, h.1, h.2, fun hne => by rw [h.2]; exact hne⟩
  simpa [tracer.StartSpanFromContext, tracer.SpanFromContext, tracer.ContextWithSpan] using h1

/-- C2 at work: the call of `TestStartSpanFromContext`. -/
theorem C2_span_in_context_takes_priority_witness :
    ∃ child, testStartSpanFromContext.1 = Span.span child ∧
      child.TraceID = 456 ∧ child.ParentID = 123 ∧
      ((123 : Nat) ≠ 789 → child.ParentID ≠ 789) :=
  C2_span_in_context_takes_priority ⟨true, "tracer.test"⟩ rfl 1 0 tracer.Context.Background
    testParent testParent2 "http.request"
    [StartSpanOption.ServiceName "gin", StartSpanOption.ResourceName "/",
      StartSpanOption.ChildOf (Span.span testParent2).Context]
    (by simp)

/-- C3 as stated fails at the call of `TestStartSpanFromContext`: the options hold
`ChildOf(parent2.Context())` with span identifier 789, the context carries `parent` with
span identifier 123, and the started span has `ParentID` 123, not 789. -/
theorem C3_counterexample_explicit_ChildOf_overridden :
    testParent ≠ testParent2 ∧
    testStartSpanFromContext.1 =
      Span.span ⟨"http.request", "gin", "/", "", 1, 456, 123, 0, [], ⟨456, 1⟩⟩ ∧
    ¬ ∃ child, testStartSpanFromContext.1 = Span.span child ∧
      child.ParentID = testParent2.context.spanID := by
  have h : testStartSpanFromContext.1 =
      Span.span ⟨"http.request", "gin", "/", "", 1, 456, 123, 0, [], ⟨456, 1⟩⟩ := by
    rfl
  refine ⟨by decide, h, ?_⟩
  rintro ⟨child, hc, hp⟩
  rw [h] at hc
  injection hc with hc
  subst hc
  simp [testParent2] at hp

/-- C3, amended: on a started tracer `StartSpanFromContext` finds the parent in the order
active binding, explicit option, new root. When the context binds a span P, the parent is P
whatever the options say. When the context binds no span, the parent is the span context of
the last `ChildOf` option. With neither, the span is a root: `ParentID` is 0 and the trace
identifier is the fresh one. -/
theorem C3_parent_resolution_order (t : tracer.tracer) (ht : t.started = true) (id : Nat)
    (now : Int) (ctx : tracer.Context) (name : String) (opts : List StartSpanOption) :
    ∃ child, (tracer.StartSpanFromContext t id now ctx name opts).1 = Span.span child ∧
      (∀ P : tracer.span, tracer.SpanFromContext ctx = (Span.span P, true) →
        child.TraceID = P.context.traceID ∧ child.ParentID = P.context.spanID) ∧
      ((tracer.SpanFromContext ctx).2 = false →
        (∀ q, parentOf opts = some (SpanContext.spanContext q) →
          child.TraceID = q.traceID ∧ child.ParentID = q.spanID) ∧
        (parentOf opts = none → child.TraceID = id ∧ child.ParentID = 0)) := by
  by_cases hb : (tracer.SpanFromContext ctx).2 = true
  · obtain ⟨child, h1, _, _, _, h5, _⟩ := StartSpan_started t ht id now name
      (opts ++ [StartSpanOption.ChildOf (tracer.SpanFromContext ctx).1.Context])
    refine ⟨child, ?_, ?_, ?_⟩
    · simpa [tracer.StartSpanFromContext, hb] using h1
    · intro P hP
      have := h5 P.context (by rw [parentOf_append_ChildOf, hP]; rfl)
      exact this
    · intro hf
      rw [hf] at hb
      cases hb
  · obtain ⟨child, h1, _, _, _, h5, h6⟩ := StartSpan_started t ht id now name opts
    refine ⟨child, ?_, ?_, ?_⟩
    · simpa [tracer.StartSpanFromContext, hb] using h1
    · intro P hP
      rw [hP] at hb
      exact absurd rfl hb
    · intro _
      exact ⟨h5, h6⟩

/-- C3 (amended) at work: no span bound, the explicit `ChildOf` decides. -/
theorem C3_parent_resolution_order_witness :
    ∃ child, (tracer.StartSpanFromContext ⟨true, "tracer.test"⟩ 1 0 tracer.Context.Background
        "http.request" [StartSpanOption.ChildOf (Span.span testParent2).Context]).1 =
          Span.span child ∧
      child.TraceID = 456 ∧ child.ParentID = 789 := by
  obtain ⟨child, h1, _, h3⟩ := C3_parent_resolution_order ⟨true, "tracer.test"⟩ rfl 1 0
    tracer.Context.Background "http.request"
    [StartSpanOption.ChildOf (Span.span testParent2).Context]
  exact ⟨child, h1, (h3 rfl).1 testParent2.context rfl⟩

/-- C4: for every context and every span, `SpanFromContext(ContextWithSpan(ctx, s))` returns
`(s, true)`; the context made by `ContextWithSpan` is a new one laid over `ctx`, which stays
the value it was, so `SpanFromContext(ctx)` answers for it what it answered before. -/
theorem C4_ContextWithSpan_round_trip (ctx : tracer.Context) (s : Span) :
    tracer.SpanFromContext (tracer.ContextWithSpan ctx s) = (s, true) ∧
    (tracer.ContextWithSpan ctx s).parent = some ctx ∧
    ∀ ctx1, (tracer.ContextWithSpan ctx s).parent = some ctx1 →
      tracer.SpanFromContext ctx1 = tracer.SpanFromContext ctx := by
  refine ⟨rfl, rfl, ?_⟩
  intro ctx1 h
  simp only [tracer.ContextWithSpan, tracer.Context.parent, Option.some.injEq] at h
  rw [h]

/-- C4 at work: the span `&span{SpanID: 123}` of `TestSpanFromContext/regular`. -/
theorem C4_ContextWithSpan_round_trip_witness :
    tracer.SpanFromContext
      (tracer.ContextWithSpan tracer.Context.Background
        (Span.span ⟨"", "", "", "", 123, 0, 0, 0, [], ⟨0, 0⟩⟩)) =
      (Span.span ⟨"", "", "", "", 123, 0, 0, 0, [], ⟨0, 0⟩⟩, true) :=
  (C4_ContextWithSpan_round_trip tracer.Context.Background
    (Span.span ⟨"", "", "", "", 123, 0, 0, 0, [], ⟨0, 0⟩⟩)).1

/-- C5: for every context in which no span is bound, `SpanFromContext` returns the no-op
span (a `*ddtrace.NoopSpan`, not nil) and `false`. -/
theorem C5_SpanFromContext_unbound_is_noop (ctx : tracer.Context)
    (h : ctx.spanBound = false) :
    tracer.SpanFromContext ctx = (Span.NoopSpan, false) := by
  induction ctx with
  | nil => rfl
  | Background => rfl
  | WithValue parent key val ih => exact ih h
  | WithSpan parent s _ => cases h

/-- C5 at work: `context.Background()`, the nil context, and a context with a binding of
other code. -/
theorem C5_SpanFromContext_unbound_is_noop_witness :
    tracer.SpanFromContext tracer.Context.Background = (Span.NoopSpan, false) ∧
    tracer.SpanFromContext tracer.Context.nil = (Span.NoopSpan, false) ∧
    tracer.SpanFromContext
      (tracer.Context.WithValue tracer.Context.Background "request-id" "42") =
        (Span.NoopSpan, false) :=
  ⟨C5_SpanFromContext_unbound_is_noop tracer.Context.Background rfl,
    C5_SpanFromContext_unbound_is_noop tracer.Context.nil rfl,
    C5_SpanFromContext_unbound_is_noop
      (tracer.Context.WithValue tracer.Context.Background "request-id" "42") rfl⟩

/-- C6: with a started tracer, for every context, operation name and options,
`StartSpanFromContext` returns a span and a context such that `SpanFromContext` of that
context is the span with `true`; the span is a span of the tracer, not a `NoopSpan`; its
name is the operation name, its service the value of the `ServiceName` option and its
resource the value of the `ResourceName` option (the last one, should there be several). -/
theorem C6_StartSpanFromContext_binds_child (t : tracer.tracer) (ht : t.started = true)
    (id : Nat) (now : Int) (ctx : tracer.Context) (name : String)
    (opts : List StartSpanOption) :
    tracer.SpanFromContext (tracer.StartSpanFromContext t id now ctx name opts).2 =
      ((tracer.StartSpanFromContext t id now ctx name opts).1, true) ∧
    (tracer.StartSpanFromContext t id now ctx name opts).1 ≠ Span.NoopSpan ∧
    ∃ child, (tracer.StartSpanFromContext t id now ctx name opts).1 = Span.span child ∧
      child.Name = name ∧
      (∀ service, serviceNameOf opts = some service → child.Service = service) ∧
      (∀ resource, resourceNameOf opts = some resource → child.Resource = resource) := by
  have key : ∃ child, (tracer.StartSpanFromContext t id now ctx name opts).1 =
        Span.span child ∧ child.Name = name ∧
      (∀ service, serviceNameOf opts = some service → child.Service = service) ∧
      (∀ resource, resourceNameOf opts = some resource → child.Resource = resource) := by
    by_cases hb : (tracer.SpanFromContext ctx).2 = true
    · obtain ⟨child, h1, h2, h3, h4, _, _⟩ := StartSpan_started t ht id now name
        (opts ++ [StartSpanOption.ChildOf (tracer.SpanFromContext ctx).1.Context])
      rw [serviceNameOf_append_ChildOf] at h3
      rw [resourceNameOf_append_ChildOf] at h4
      exact ⟨child, by simpa [tracer.StartSpanFromContext, hb] using h1, h2, h3, h4⟩
    · obtain ⟨child, h1, h2, h3, h4, _, _⟩ := StartSpan_started t ht id now name opts
      exact ⟨child, by simpa [tracer.StartSpanFromContext, hb] using h1, h2, h3, h4⟩
  refine ⟨rfl, ?_, key⟩
  obtain ⟨child, h1, _⟩ := key
  rw [h1]
  exact fun h => Span.noConfusion h

/-- C6 at work: the call of `TestStartSpanFromContext` yields a span named "http.request"
of service "gin" and resource "/", bound in the returned context. -/
theorem C6_StartSpanFromContext_binds_child_witness :
    tracer.SpanFromContext testStartSpanFromContext.2 = (testStartSpanFromContext.1, true) ∧
    testStartSpanFromContext.1 ≠ Span.NoopSpan ∧
    ∃ child, testStartSpanFromContext.1 = Span.span child ∧
      child.Name = "http.request" ∧ child.Service = "gin" ∧ child.Resource = "/" := by
  obtain ⟨h1, h2, child, h3, h4, h5, h6⟩ :=
    C6_StartSpanFromContext_binds_child ⟨true, "tracer.test"⟩ rfl 1 0
      (tracer.ContextWithSpan tracer.Context.Background (Span.span testParent))
      "http.request"
      [StartSpanOption.ServiceName "gin", StartSpanOption.ResourceName "/",
        StartSpanOption.ChildOf (Span.span testParent2).Context]
  exact ⟨h1, h2, child, h3, h4, h5 "gin" rfl, h6 "/" rfl⟩

/-- C11: grpc `finishWithError` makes one finish call. Its `WithError` option carries nil
when `err` is `io.EOF` or `context.Canceled`, or when the status code of `err` is `codes.OK`
or listed in `cfg.nonErrorCodes`, and carries `err` itself for every other `err`. The
option `NoDebugStack` is among the finish options if and only if `cfg.noDebugStack` is
true. -/
theorem C11_finishWithError_disregards_ok_eof_canceled {Ctx Span Call : Type} (L : grpc.Lib)
    (tagCode : String) (span : Span) (err : Err) (cfg : grpc.config) :
    ∃ fo, finishOpts
        (grpc.finishWithError L tagCode span err cfg : List (Event Ctx Span Call)) = [fo] ∧
      ((err = some grpc.EOF ∨ err = some grpc.Canceled ∨ L.Code err = L.OK ∨
          cfg.nonErrorCodes (L.Code err) = true) →
        fo.filter isWithError = [FinishOption.WithError none]) ∧
      (¬ (err = some grpc.EOF ∨ err = some grpc.Canceled ∨ L.Code err = L.OK ∨
          cfg.nonErrorCodes (L.Code err) = true) →
        fo.filter isWithError = [FinishOption.WithError err]) ∧
      (FinishOption.NoDebugStack ∈ fo ↔ cfg.noDebugStack = true) := by
  refine ⟨_, rfl, ?_, ?_, ?_⟩
  · intro h
    by_cases h1 : err = some grpc.EOF ∨ err = some grpc.Canceled
    · by_cases h2 : L.Code none = L.OK ∨ cfg.nonErrorCodes (L.Code none) = true <;>
        cases hd : cfg.noDebugStack <;> simp [h1, h2, hd, isWithError]
    · have h2 : L.Code err = L.OK ∨ cfg.nonErrorCodes (L.Code err) = true := by
        rcases h with h | h | h | h
        · exact absurd (Or.inl h) h1
        · exact absurd (Or.inr h) h1
        · exact Or.inl h
        · exact Or.inr h
      cases hd : cfg.noDebugStack <;> simp [h1, h2, hd, isWithError]
  · intro h
    have h1 : ¬ (err = some grpc.EOF ∨ err = some grpc.Canceled) :=
      fun h1 => h (h1.elim Or.inl (fun h => Or.inr (Or.inl h)))
    have h2 : ¬ (L.Code err = L.OK ∨ cfg.nonErrorCodes (L.Code err) = true) :=
      fun h2 => h (Or.inr (Or.inr h2))
    cases hd : cfg.noDebugStack <;> simp [h1, h2, hd, isWithError]
  · by_cases h1 : err = some grpc.EOF ∨ err = some grpc.Canceled <;>
      cases hd : cfg.noDebugStack <;> simp [h1, hd]

/-- C11 at work: a status error with code 5, which is not listed, is kept; `io.EOF` is
dropped. -/
theorem C11_finishWithError_disregards_ok_eof_canceled_witness :
    (∃ fo, finishOpts
        (grpc.finishWithError exampleGrpcLib "grpc.code" 7
          (some (GoError.status 5 "not found")) ⟨fun _ => false, false⟩ :
            List (Event Nat Nat Unit)) = [fo] ∧
      fo.filter isWithError =
        [FinishOption.WithError (some (GoError.status 5 "not found"))]) ∧
    (∃ fo, finishOpts
        (grpc.finishWithError exampleGrpcLib "grpc.code" 7 (some grpc.EOF)
          ⟨fun _ => false, false⟩ : List (Event Nat Nat Unit)) = [fo] ∧
      fo.filter isWithError = [FinishOption.WithError none]) := by
  obtain ⟨fo, h1, _, h3, _⟩ :=
    @C11_finishWithError_disregards_ok_eof_canceled Nat Nat Unit exampleGrpcLib "grpc.code" 7
      (some (GoError.status 5 "not found")) ⟨fun _ => false, false⟩
  obtain ⟨fo2, k1, k2, _, _⟩ :=
    @C11_finishWithError_disregards_ok_eof_canceled Nat Nat Unit exampleGrpcLib "grpc.code" 7
      (some grpc.EOF) ⟨fun _ => false, false⟩
  exact ⟨⟨fo, h1, h3 (by decide)⟩, ⟨fo2, k1, k2 (Or.inl rfl)⟩⟩

theorem SpanFromContext_not_found_of_unbound (ctx : tracer.Context)
    (h : ctx.spanBound = false) : (tracer.SpanFromContext ctx).2 = false := by
  induction ctx with
  | nil => rfl
  | Background => rfl
  | WithValue parent key val ih => exact ih h
  | WithSpan parent s _ => cases h

/-- C12: with analytics rate `<= 0`, no span context in the incoming metadata and a nil
error, grpc `startSpanFromContext` starts the span with exactly the options service name =
`service`, resource name = `method`, `tagMethod` = `method` and span type =
`ext.AppTypeRPC`, hence without a `ChildOf`, and `finishWithError` then sets exactly one
tag, `tagCode` = "OK", and finishes without error. (`status.Code(nil)` is `codes.OK` and
its string is "OK".) On the modelled tracer, when the context binds no span either, the
started span is a root: `ParentID` is zero, and it carries these four values and no other
tag. -/
theorem C12_grpc_tags_of_successful_call {Ctx Span Call : Type} (E : Ext)
    (T : TracerAPI Ctx Span) (L : grpc.Lib) (tagMethod tagCode : String)
    (method operation service : String) (rate : Float64) (cfg : grpc.config)
    (hrate : rate.leZero = true) (hOK : L.Code none = L.OK)
    (hString : L.CodeString L.OK = "OK") :
    (∀ (FromIncomingContext : Ctx → Header) (ctx : Ctx),
      (∀ sctx, T.Extract (Carrier.MDCarrier (FromIncomingContext ctx)) ≠ Except.ok sctx) →
      startedOpts
          (grpc.startSpanFromContext E T tagMethod FromIncomingContext ctx method operation
            service rate : (Span × Ctx) × List (Event Ctx Span Call)).2 =
        [[StartSpanOption.ServiceName service, StartSpanOption.ResourceName method,
          StartSpanOption.Tag tagMethod (Value.str method),
          StartSpanOption.SpanType E.AppTypeRPC]] ∧
      (grpc.startSpanFromContext E T tagMethod FromIncomingContext ctx method operation
            service rate : (Span × Ctx) × List (Event Ctx Span Call)).1 =
        T.StartSpanFromContext ctx operation
          [StartSpanOption.ServiceName service, StartSpanOption.ResourceName method,
            StartSpanOption.Tag tagMethod (Value.str method),
            StartSpanOption.SpanType E.AppTypeRPC]) ∧
    (∀ span : Span,
      setTags (grpc.finishWithError L tagCode span none cfg : List (Event Ctx Span Call)) =
        [(tagCode, Value.str "OK")] ∧
      ∃ fo, finishOpts
          (grpc.finishWithError L tagCode span none cfg : List (Event Ctx Span Call)) = [fo] ∧
        fo.filter isWithError = [FinishOption.WithError none]) ∧
    (∀ (t : tracer.tracer) (id : Nat) (now : Int)
        (Extract : Carrier → Except GoError SpanContext)
        (FromIncomingContext : tracer.Context → Header) (ctx : tracer.Context),
      t.started = true → ctx.spanBound = false →
      (∀ sctx, Extract (Carrier.MDCarrier (FromIncomingContext ctx)) ≠ Except.ok sctx) →
      ∃ child,
        (grpc.startSpanFromContext E (tracer.api t id now Extract) tagMethod
          FromIncomingContext ctx method operation service rate :
            (ddtrace.Span × tracer.Context) × List (Event tracer.Context ddtrace.Span Call)).1.1 =
          ddtrace.Span.span child ∧
        child.ParentID = 0 ∧ child.TraceID = id ∧ child.Name = operation ∧
        child.Service = service ∧ child.Resource = method ∧ child.Type_ = E.AppTypeRPC ∧
        child.Meta = [(tagMethod, Value.str method)]) := by
  have hg := Float64.not_gtZero_of_leZero rate hrate
  refine ⟨?_, ?_, ?_⟩
  · intro FromIncomingContext ctx hmd
    cases hx : T.Extract (Carrier.MDCarrier (FromIncomingContext ctx)) with
    | ok sctx => exact absurd hx (hmd sctx)
    | error e => simp [grpc.startSpanFromContext, hg, hx, startedOpts]
  · intro span
    refine ⟨?_, ?_⟩
    · simp [grpc.finishWithError, setTags, hOK, hString]
    · refine ⟨_, rfl, ?_⟩
      cases hd : cfg.noDebugStack <;> simp [hOK, hd, isWithError]
  · intro t id now Extract FromIncomingContext ctx ht hctx hmd
    have hb := SpanFromContext_not_found_of_unbound ctx hctx
    cases hx : Extract (Carrier.MDCarrier (FromIncomingContext ctx)) with
    | ok sctx => exact absurd hx (hmd sctx)
    | error e =>
      refine ⟨⟨operation, service, method, E.AppTypeRPC, id, id, 0, now,
        [(tagMethod, Value.str method)], ⟨id, id⟩⟩, ?_, rfl, rfl, rfl, rfl, rfl, rfl, rfl⟩
      simp [grpc.startSpanFromContext, tracer.api, hg, hx, tracer.StartSpanFromContext,
        hb, tracer.StartSpan, ht, tracer.StartSpanConfig.apply]

/-- C12 at work: the call of `TestServerStatsHandler`, `/grpc.Fixture/Ping` on service
"grpc-service"; on the modelled tracer the span is a root. -/
theorem C12_grpc_tags_of_successful_call_witness :
    (Float64.zero.leZero = true ∧ exampleGrpcLib.Code none = exampleGrpcLib.OK ∧
      exampleGrpcLib.CodeString exampleGrpcLib.OK = "OK") ∧
    startedOpts
        (grpc.startSpanFromContext exampleExt exampleTracer "grpc.method" (fun _ => []) 0
          "/grpc.Fixture/Ping" "grpc.server" "grpc-service" Float64.zero :
            (Nat × Nat) × List (Event Nat Nat Unit)).2 =
      [[StartSpanOption.ServiceName "grpc-service",
        StartSpanOption.ResourceName "/grpc.Fixture/Ping",
        StartSpanOption.Tag "grpc.method" (Value.str "/grpc.Fixture/Ping"),
        StartSpanOption.SpanType "rpc"]] ∧
    setTags (grpc.finishWithError exampleGrpcLib "grpc.code" 1 none ⟨fun _ => false, false⟩ :
        List (Event Nat Nat Unit)) = [("grpc.code", Value.str "OK")] ∧
    ∃ child,
      (grpc.startSpanFromContext exampleExt
        (tracer.api ⟨true, "tracer.test"⟩ 1 0 (fun _ => Except.error (GoError.text "empty")))
        "grpc.method" (fun _ => []) tracer.Context.Background "/grpc.Fixture/Ping"
        "grpc.server" "grpc-service" Float64.zero :
          (ddtrace.Span × tracer.Context) ×
            List (Event tracer.Context ddtrace.Span Unit)).1.1 = ddtrace.Span.span child ∧
      child.ParentID = 0 := by
  have h := @C12_grpc_tags_of_successful_call Nat Nat Unit exampleExt exampleTracer
    exampleGrpcLib "grpc.method" "grpc.code" "/grpc.Fixture/Ping" "grpc.server" "grpc-service"
    Float64.zero ⟨fun _ => false, false⟩ rfl rfl rfl
  obtain ⟨child, hc, hp, _⟩ := h.2.2 ⟨true, "tracer.test"⟩ 1 0
    (fun _ => Except.error (GoError.text "empty")) (fun _ => []) tracer.Context.Background
    rfl rfl (by intro sctx hx; cases hx)
  exact ⟨⟨rfl, rfl, rfl⟩, (h.1 (fun _ => []) 0 (by intro sctx hx; cases hx)).1,
    (h.2.1 1).1, child, hc, hp⟩

theorem finishOpts_append {Ctx Span Call : Type} (l1 l2 : List (Event Ctx Span Call)) :
    finishOpts (l1 ++ l2) = finishOpts l1 ++ finishOpts l2 := by
  induction l1 with
  | nil => rfl
  | cons e es ih => cases e <;> simp [finishOpts, ih]

theorem finishOpts_of_no_finish {Ctx Span Call : Type} (l : List (Event Ctx Span Call))
    (h : ∀ e ∈ l, isFinish e = false) : finishOpts l = [] := by
  induction l with
  | nil => rfl
  | cons e es ih =>
    have he := h e (List.mem_cons_self _ _)
    have hes := ih (fun x hx => h x (List.mem_cons_of_mem _ hx))
    cases e <;> simp_all [finishOpts, isFinish]

/-- C13: sql `tryTrace` makes no call at all when `err` is `driver.ErrSkip` (no span
started, no tag set, nothing finished); for every other `err`, nil included, it starts one
span, whose only start time option is `StartTime(startTime)`, and finishes that span once,
with `WithError(err)`. So a span is started if and only if `err` is not `driver.ErrSkip`. -/
theorem C13_tryTrace_noop_on_ErrSkip {Ctx Span Call : Type} (E : Ext)
    (T : TracerAPI Ctx Span) (tp : sql.traceParams) (ctx : Ctx) (resource query : String)
    (startTime : Int) (err : Err) :
    (err = some sql.ErrSkip →
      (sql.tryTrace E T tp ctx resource query startTime err : List (Event Ctx Span Call)) =
        []) ∧
    (err ≠ some sql.ErrSkip →
      ∃ opts, startedOpts (sql.tryTrace E T tp ctx resource query startTime err :
          List (Event Ctx Span Call)) = [opts] ∧
        opts.filter isStartTime = [StartSpanOption.StartTime startTime] ∧
        finishedSpans (sql.tryTrace E T tp ctx resource query startTime err :
          List (Event Ctx Span Call)) = [(T.StartSpanFromContext ctx resource opts).1] ∧
        finishOpts (sql.tryTrace E T tp ctx resource query startTime err :
          List (Event Ctx Span Call)) = [[FinishOption.WithError err]]) ∧
    (startedOpts (sql.tryTrace E T tp ctx resource query startTime err :
        List (Event Ctx Span Call)) ≠ [] ↔ err ≠ some sql.ErrSkip) := by
  have hskip : err = some sql.ErrSkip →
      (sql.tryTrace E T tp ctx resource query startTime err : List (Event Ctx Span Call)) =
        [] := by
    intro h
    simp [sql.tryTrace, h]
  have hstart : err ≠ some sql.ErrSkip →
      startedOpts (sql.tryTrace E T tp ctx resource query startTime err :
          List (Event Ctx Span Call)) =
        [if tp.config.analyticsRate.gtZero then
          [StartSpanOption.SpanType E.SpanTypeSQL,
            StartSpanOption.ServiceName tp.config.serviceName,
            StartSpanOption.StartTime startTime]
            ++ [StartSpanOption.Tag E.EventSampleRate (Value.float tp.config.analyticsRate)]
        else [StartSpanOption.SpanType E.SpanTypeSQL,
            StartSpanOption.ServiceName tp.config.serviceName,
            StartSpanOption.StartTime startTime]] := by
    intro herr
    simp only [sql.tryTrace, if_neg herr, startedOpts_append, startedOpts_map_SetTag]
    by_cases hq : query = "" <;> simp [hq, startedOpts]
  refine ⟨hskip, ?_, ?_⟩
  · intro herr
    refine ⟨_, hstart herr, ?_, ?_, ?_⟩
    · by_cases hg : tp.config.analyticsRate.gtZero = true <;> simp [hg, isStartTime]
    · simp only [sql.tryTrace, if_neg herr]
      rw [show ∀ (a b c d : List (Event Ctx Span Call)) (x y : Event Ctx Span Call),
        a ++ b ++ c ++ d ++ [x, y] = (a ++ b ++ c ++ d ++ [x]) ++ [y] from by simp]
      rw [finishedSpans_append, finishedSpans_of_no_finish]
      · rfl
      · intro e he
        simp only [List.mem_append, List.mem_cons, List.mem_singleton, List.not_mem_nil,
          or_false, List.mem_map] at he
        rcases he with (((rfl | he) | rfl) | ⟨kv, _, rfl⟩) | rfl
        · rfl
        · split at he
          · rw [List.mem_singleton] at he
            subst he
            rfl
          · cases he
        · rfl
        · rfl
        · rfl
    · simp only [sql.tryTrace, if_neg herr]
      rw [show ∀ (a b c d : List (Event Ctx Span Call)) (x y : Event Ctx Span Call),
        a ++ b ++ c ++ d ++ [x, y] = (a ++ b ++ c ++ d ++ [x]) ++ [y] from by simp]
      rw [finishOpts_append, finishOpts_of_no_finish]
      · rfl
      · intro e he
        simp only [List.mem_append, List.mem_cons, List.mem_singleton, List.not_mem_nil,
          or_false, List.mem_map] at he
        rcases he with (((rfl | he) | rfl) | ⟨kv, _, rfl⟩) | rfl
        · rfl
        · split at he
          · rw [List.mem_singleton] at he
            subst he
            rfl
          · cases he
        · rfl
        · rfl
        · rfl
  · constructor
    · intro h herr
      rw [hskip herr] at h
      exact h rfl
    · intro herr
      rw [hstart herr]
      simp

/-- C13 at work: with `driver.ErrSkip` nothing is called; with a nil error the span is
finished with `WithError(nil)`. -/
theorem C13_tryTrace_noop_on_ErrSkip_witness :
    (sql.tryTrace exampleExt exampleTracer
      ⟨⟨"postgres.db", Float64.zero⟩, "postgres", "", [("db.user", "bob")]⟩
      0 "Query" "SELECT 1" 17 (some sql.ErrSkip) : List (Event Nat Nat Unit)) = [] ∧
    finishOpts (sql.tryTrace exampleExt exampleTracer
      ⟨⟨"postgres.db", Float64.zero⟩, "postgres", "", [("db.user", "bob")]⟩
      0 "Query" "SELECT 1" 17 none : List (Event Nat Nat Unit)) =
        [[FinishOption.WithError none]] := by
  have h1 := (@C13_tryTrace_noop_on_ErrSkip Nat Nat Unit exampleExt exampleTracer
    ⟨⟨"postgres.db", Float64.zero⟩, "postgres", "", [("db.user", "bob")]⟩
    0 "Query" "SELECT 1" 17 (some sql.ErrSkip)).1 rfl
  obtain ⟨_, _, _, _, h2⟩ := (@C13_tryTrace_noop_on_ErrSkip Nat Nat Unit exampleExt
    exampleTracer ⟨⟨"postgres.db", Float64.zero⟩, "postgres", "", [("db.user", "bob")]⟩
    0 "Query" "SELECT 1" 17 none).2.1 (by decide)
  exact ⟨h1, h2⟩

/-- C14: in the option sets of chi, gorilla/mux, httprouter and net/http, whatever the
config was before (so also right after `defaults`, for every global default rate, and after
any earlier analytics option), `WithAnalyticsRate(r)` leaves `analyticsRate = r`;
`WithAnalytics(true)` is `WithAnalyticsRate(1.0)` and `WithAnalytics(false)` is
`WithAnalyticsRate(0.0)`; and the service name and span options, which do not touch the
rate, keep it. Hence among several analytics options the last one wins. -/
theorem C14_explicit_analytics_option_wins (r : Float64) :
    ((∀ cfg : chi.config, (chi.WithAnalyticsRate r cfg).analyticsRate = r) ∧
      (∀ g : Float64, (chi.WithAnalyticsRate r (chi.defaults g chi.newConfig)).analyticsRate
        = r) ∧
      chi.WithAnalytics true = chi.WithAnalyticsRate Float64.one ∧
      chi.WithAnalytics false = chi.WithAnalyticsRate Float64.zero ∧
      (∀ (g : Float64) (before : List chi.Option),
        (chi.buildConfig g (before ++ [chi.WithAnalyticsRate r])).analyticsRate = r) ∧
      (∀ (name : String) (opts : List StartSpanOption) (cfg : chi.config),
        (chi.WithServiceName name cfg).analyticsRate = cfg.analyticsRate ∧
        (chi.WithSpanOptions opts cfg).analyticsRate = cfg.analyticsRate)) ∧
    ((∀ cfg : mux.routerConfig, (mux.WithAnalyticsRate r cfg).analyticsRate = r) ∧
      (∀ (g : Float64) (cfg : mux.routerConfig),
        (mux.WithAnalyticsRate r (mux.defaults g cfg)).analyticsRate = r) ∧
      mux.WithAnalytics true = mux.WithAnalyticsRate Float64.one ∧
      mux.WithAnalytics false = mux.WithAnalyticsRate Float64.zero ∧
      (∀ (name : String) (opts : List StartSpanOption) (cfg : mux.routerConfig),
        (mux.WithServiceName name cfg).analyticsRate = cfg.analyticsRate ∧
        (mux.WithSpanOptions opts cfg).analyticsRate = cfg.analyticsRate)) ∧
    ((∀ cfg : httprouter.routerConfig,
        (httprouter.WithAnalyticsRate r cfg).analyticsRate = r) ∧
      (∀ (g : Float64) (cfg : httprouter.routerConfig),
        (httprouter.WithAnalyticsRate r (httprouter.defaults g cfg)).analyticsRate = r) ∧
      httprouter.WithAnalytics true = httprouter.WithAnalyticsRate Float64.one ∧
      httprouter.WithAnalytics false = httprouter.WithAnalyticsRate Float64.zero ∧
      (∀ (name : String) (opts : List StartSpanOption) (cfg : httprouter.routerConfig),
        (httprouter.WithServiceName name cfg).analyticsRate = cfg.analyticsRate ∧
        (httprouter.WithSpanOptions opts cfg).analyticsRate = cfg.analyticsRate)) ∧
    ((∀ cfg : nethttp.config, (nethttp.WithAnalyticsRate r cfg).analyticsRate = r) ∧
      (∀ g : Float64,
        (nethttp.WithAnalyticsRate r (nethttp.defaults g nethttp.newConfig)).analyticsRate
          = r) ∧
      nethttp.WithAnalytics true = nethttp.WithAnalyticsRate Float64.one ∧
      nethttp.WithAnalytics false = nethttp.WithAnalyticsRate Float64.zero ∧
      (∀ (g : Float64) (before : List nethttp.Option),
        (nethttp.buildConfig g (before ++ [nethttp.WithAnalyticsRate r])).analyticsRate
          = r) ∧
      (∀ (name : String) (opts : List StartSpanOption) (cfg : nethttp.config),
        (nethttp.WithServiceName name cfg).analyticsRate = cfg.analyticsRate ∧
        (nethttp.WithSpanOptions opts cfg).analyticsRate = cfg.analyticsRate)) := by
  refine ⟨⟨fun _ => rfl, fun _ => rfl, rfl, rfl, ?_, fun _ _ _ => ⟨rfl, rfl⟩⟩,
    ⟨fun _ => rfl, fun _ _ => rfl, rfl, rfl, fun _ _ _ => ⟨rfl, rfl⟩⟩,
    ⟨fun _ => rfl, fun _ _ => rfl, rfl, rfl, fun _ _ _ => ⟨rfl, rfl⟩⟩,
    ⟨fun _ => rfl, fun _ => rfl, rfl, rfl, ?_, fun _ _ _ => ⟨rfl, rfl⟩⟩⟩
  · intro g before
    simp [chi.buildConfig, List.foldl_append, chi.WithAnalyticsRate]
  · intro g before
    simp [nethttp.buildConfig, List.foldl_append, nethttp.WithAnalyticsRate]

theorem chi_foldl_keeps_analyticsRate (after : List chi.OptionCall)
    (h : ∀ c ∈ after, c.isAnalytics = false) (cfg : chi.config) :
    ((after.map chi.OptionCall.toOption).foldl (fun cfg fn => fn cfg) cfg).analyticsRate =
      cfg.analyticsRate := by
  induction after generalizing cfg with
  | nil => rfl
  | cons c cs ih =>
    have hc := h c (List.mem_cons_self _ _)
    rw [List.map_cons, List.foldl_cons, ih (fun x hx => h x (List.mem_cons_of_mem _ hx))]
    cases c <;> simp_all [chi.OptionCall.isAnalytics, chi.OptionCall.toOption,
      chi.WithServiceName, chi.WithSpanOptions]

theorem chi_foldl_keeps_serviceName (after : List chi.OptionCall)
    (h : ∀ c ∈ after, c.isWithServiceName = false) (cfg : chi.config) :
    ((after.map chi.OptionCall.toOption).foldl (fun cfg fn => fn cfg) cfg).serviceName =
      cfg.serviceName := by
  induction after generalizing cfg with
  | nil => rfl
  | cons c cs ih =>
    have hc := h c (List.mem_cons_self _ _)
    rw [List.map_cons, List.foldl_cons, ih (fun x hx => h x (List.mem_cons_of_mem _ hx))]
    cases c with
    | WithServiceName name => simp [chi.OptionCall.isWithServiceName] at hc
    | WithSpanOptions opts => rfl
    | WithAnalytics enable => cases enable <;> rfl
    | WithAnalyticsRate rate => rfl

theorem chi_Middleware_startedOpts {Ctx Span : Type} (E : Ext) (T : TracerAPI Ctx Span)
    (StatusText : Int → String) (globalRate : Float64) (options : List chi.Option)
    (next : Ctx → chi.Served) (req : chi.Request Ctx) :
    startedOpts (chi.Middleware E T StatusText globalRate options next req) =
      [chi.startOpts E T (chi.buildConfig globalRate options) req] := by
  simp only [chi.Middleware, chi.handler, List.cons_append, List.nil_append, startedOpts,
    startedOpts_append]
  split <;> simp [startedOpts]

/-- C15: when `WithAnalytics(false)` is the last analytics option given to chi
`Middleware`, the middleware adds no tag under `ext.EventSampleRate` to the start options of
any request span: the tags under that key are those of the configured span options, for
every request and every global default rate, a positive one included. The keys
`ext.HTTPMethod` and `ext.HTTPURL` are taken to differ from `ext.EventSampleRate`. -/
theorem C15_WithAnalytics_false_removes_tag {Ctx Span : Type} (E : Ext)
    (hMethod : E.HTTPMethod ≠ E.EventSampleRate) (hURL : E.HTTPURL ≠ E.EventSampleRate)
    (T : TracerAPI Ctx Span) (StatusText : Int → String) (globalRate : Float64)
    (before after : List chi.OptionCall) (hafter : ∀ c ∈ after, c.isAnalytics = false)
    (next : Ctx → chi.Served) (req : chi.Request Ctx) :
    ∃ opts, startedOpts
        (chi.Middleware E T StatusText globalRate
          ((before ++ chi.OptionCall.WithAnalytics false :: after).map
            chi.OptionCall.toOption) next req) = [opts] ∧
      countEventSampleRate E opts =
        countEventSampleRate E
          (chi.buildConfig globalRate
            ((before ++ chi.OptionCall.WithAnalytics false :: after).map
              chi.OptionCall.toOption)).spanOpts ∧
      ((∀ o ∈ (chi.buildConfig globalRate
            ((before ++ chi.OptionCall.WithAnalytics false :: after).map
              chi.OptionCall.toOption)).spanOpts, isEventSampleRateTag E o = false) →
        ∀ o ∈ opts, isEventSampleRateTag E o = false) := by
  have hrate : (chi.buildConfig globalRate
      ((before ++ chi.OptionCall.WithAnalytics false :: after).map
        chi.OptionCall.toOption)).analyticsRate = Float64.zero := by
    rw [chi.buildConfig, List.map_append, List.foldl_append, List.map_cons, List.foldl_cons,
      chi_foldl_keeps_analyticsRate after hafter]
    rfl
  have hcount : countEventSampleRate E (chi.startOpts E T (chi.buildConfig globalRate
      ((before ++ chi.OptionCall.WithAnalytics false :: after).map
        chi.OptionCall.toOption)) req) =
      countEventSampleRate E (chi.buildConfig globalRate
        ((before ++ chi.OptionCall.WithAnalytics false :: after).map
          chi.OptionCall.toOption)).spanOpts := by
    generalize chi.buildConfig globalRate
      ((before ++ chi.OptionCall.WithAnalytics false :: after).map
        chi.OptionCall.toOption) = cfg at hrate ⊢
    have hz : Float64.zero.gtZero = false := rfl
    cases hx : T.Extract (Carrier.HTTPHeadersCarrier req.Header) <;>
      simp [chi.startOpts, hrate, hz, hx, countEventSampleRate, isEventSampleRateTag,
        List.countP_append, List.countP_cons, hMethod, hURL]
  refine ⟨_, chi_Middleware_startedOpts E T StatusText globalRate _ next req, hcount, ?_⟩
  intro huser o ho
  by_contra hne
  have hpos : 0 < countEventSampleRate E (chi.startOpts E T (chi.buildConfig globalRate
      ((before ++ chi.OptionCall.WithAnalytics false :: after).map
        chi.OptionCall.toOption)) req) :=
    List.countP_pos_iff.mpr ⟨o, ho, by simpa using hne⟩
  rw [hcount] at hpos
  obtain ⟨u, hu, hut⟩ := List.countP_pos_iff.mp hpos
  rw [huser u hu] at hut
  cases hut

/-- C15 at work: global default rate 1.0, analytics switched on and then off again, a
service name given last. -/
theorem C15_WithAnalytics_false_removes_tag_witness :
    (exampleExt.HTTPMethod ≠ exampleExt.EventSampleRate ∧
      exampleExt.HTTPURL ≠ exampleExt.EventSampleRate) ∧
    ∃ opts, startedOpts
        (chi.Middleware exampleExt exampleTracer (fun _ => "") Float64.one
          (([chi.OptionCall.WithAnalyticsRate Float64.one] ++
            chi.OptionCall.WithAnalytics false ::
              [chi.OptionCall.WithServiceName "chi-server"]).map chi.OptionCall.toOption)
          (fun _ => ⟨200, "/"⟩) ⟨"GET", "/", [], 0⟩) = [opts] ∧
      ∀ o ∈ opts, isEventSampleRateTag exampleExt o = false := by
  obtain ⟨opts, h1, _, h3⟩ := C15_WithAnalytics_false_removes_tag exampleExt (by decide)
    (by decide) exampleTracer (fun _ => "") Float64.one
    [chi.OptionCall.WithAnalyticsRate Float64.one]
    [chi.OptionCall.WithServiceName "chi-server"] (by decide) (fun _ => ⟨200, "/"⟩)
    ⟨"GET", "/", [], 0⟩
  exact ⟨⟨by decide, by decide⟩, opts, h1, h3 (by intro o ho; cases ho)⟩

theorem commandsToString_foldl_acc (cmds : List redis.Cmder) (acc : String) :
    cmds.foldl (fun b cmd => b ++ redis.cmderToString cmd ++ "\n") acc =
      acc ++ cmds.foldl (fun b cmd => b ++ redis.cmderToString cmd ++ "\n") "" := by
  induction cmds generalizing acc with
  | nil => simp
  | cons c cs ih =>
    rw [List.foldl_cons, List.foldl_cons, ih, ih ("" ++ redis.cmderToString c ++ "\n")]
    simp [String.append_assoc]

/-- C16 as stated fails for the single command `GET k`: `commandsToString` returns "GET k"
followed by a newline, whereas joining with a newline between consecutive elements gives
"GET k". -/
theorem C16_counterexample_single_command :
    redis.commandsToString [⟨redis.StringMethod.Stringer "GET k", []⟩] = "GET k\n" ∧
    joinedWithNewlines [⟨redis.StringMethod.Stringer "GET k", []⟩] = "GET k" ∧
    redis.commandsToString [⟨redis.StringMethod.Stringer "GET k", []⟩] ≠
      joinedWithNewlines [⟨redis.StringMethod.Stringer "GET k", []⟩] := by
  refine ⟨by decide, by decide, by decide⟩

/-- C16, amended: for every list of commands, redis `commandsToString` returns the
`cmderToString` values of the elements, in order, each followed by a newline: the empty list
gives the empty string, and the result for `cmd :: cmds` is the string of `cmd`, a newline,
and the result for `cmds`. -/
theorem C16_commandsToString_each_followed_by_newline (cmds : List redis.Cmder) :
    redis.commandsToString cmds = eachFollowedByNewline cmds ∧
    redis.commandsToString [] = "" ∧
    ∀ cmd : redis.Cmder,
      redis.commandsToString (cmd :: cmds) =
        redis.cmderToString cmd ++ "\n" ++ redis.commandsToString cmds := by
  have hcons : ∀ (cmd : redis.Cmder) (rest : List redis.Cmder),
      redis.commandsToString (cmd :: rest) =
        redis.cmderToString cmd ++ "\n" ++ redis.commandsToString rest := by
    intro cmd rest
    simp only [redis.commandsToString, List.foldl_cons]
    rw [commandsToString_foldl_acc]
    simp
  refine ⟨?_, rfl, fun cmd => hcons cmd cmds⟩
  induction cmds with
  | nil => rfl
  | cons c cs ih => rw [hcons, ih, eachFollowedByNewline]

/-- C17: dns `responseWriter.WriteMsg`. For a message whose `Rcode` is not
`dns.RcodeSuccess` the field `err` is afterwards a non-nil error with the text
`dns.RcodeToString[Rcode]`; for a message with `Rcode = RcodeSuccess` the field is what it
was before. In both cases the message, and no other, is passed to the embedded writer, whose
result is returned, and the embedded writer stays the same. -/
theorem C17_WriteMsg_records_failure (RcodeSuccess : Int) (RcodeToString : Int → String)
    (rw : dns.responseWriter) (msg : dns.Msg) :
    (msg.Rcode ≠ RcodeSuccess →
      (rw.WriteMsg RcodeSuccess RcodeToString msg).1.1.err =
        some (GoError.text (RcodeToString msg.Rcode)) ∧
      (rw.WriteMsg RcodeSuccess RcodeToString msg).1.1.err ≠ none) ∧
    (msg.Rcode = RcodeSuccess →
      (rw.WriteMsg RcodeSuccess RcodeToString msg).1.1.err = rw.err) ∧
    (rw.WriteMsg RcodeSuccess RcodeToString msg).2 = [msg] ∧
    (rw.WriteMsg RcodeSuccess RcodeToString msg).1.2 = rw.underlyingWriteMsg msg ∧
    (rw.WriteMsg RcodeSuccess RcodeToString msg).1.1.underlyingWriteMsg =
      rw.underlyingWriteMsg := by
  by_cases h : msg.Rcode = RcodeSuccess <;> simp [dns.responseWriter.WriteMsg, h]

/-- C17 at work: a refused answer (Rcode 5) followed by a successful one (Rcode 0) leaves
the error of the first in place. -/
theorem C17_WriteMsg_records_failure_witness :
    ((⟨fun _ => none, none⟩ : dns.responseWriter).WriteMsg 0 (fun _ => "REFUSED")
      ⟨0, 5⟩).1.1.err = some (GoError.text "REFUSED") ∧
    ((((⟨fun _ => none, none⟩ : dns.responseWriter).WriteMsg 0 (fun _ => "REFUSED")
      ⟨0, 5⟩).1.1).WriteMsg 0 (fun _ => "REFUSED") ⟨0, 0⟩).1.1.err =
        some (GoError.text "REFUSED") :=
  ⟨((C17_WriteMsg_records_failure 0 (fun _ => "REFUSED") ⟨fun _ => none, none⟩ ⟨0, 5⟩).1
      (by decide)).1,
    ((C17_WriteMsg_records_failure 0 (fun _ => "REFUSED")
      ((⟨fun _ => none, none⟩ : dns.responseWriter).WriteMsg 0 (fun _ => "REFUSED")
        ⟨0, 5⟩).1.1 ⟨0, 0⟩).2.1 rfl).trans
      ((C17_WriteMsg_records_failure 0 (fun _ => "REFUSED") ⟨fun _ => none, none⟩
        ⟨0, 5⟩).1 (by decide)).1⟩

/-- C18: net/http `WithSpanOptions` adds to the span options: for every config with span
options S and every lists a and b, after `WithSpanOptions(a...)` the span options are
`S ++ a`; `WithSpanOptions(a...)` followed by `WithSpanOptions(b...)` gives the config that
`WithSpanOptions` of `a ++ b` gives; and the service name and the analytics rate stay as
they were. -/
theorem C18_WithSpanOptions_appends (cfg : nethttp.config) (a b : List StartSpanOption) :
    (nethttp.WithSpanOptions a cfg).spanOpts = cfg.spanOpts ++ a ∧
    nethttp.WithSpanOptions b (nethttp.WithSpanOptions a cfg) =
      nethttp.WithSpanOptions (a ++ b) cfg ∧
    (nethttp.WithSpanOptions a cfg).serviceName = cfg.serviceName ∧
    (nethttp.WithSpanOptions a cfg).analyticsRate = cfg.analyticsRate := by
  refine ⟨rfl, ?_, rfl, rfl⟩
  simp [nethttp.WithSpanOptions, List.append_assoc]

theorem chi_startOpts_serviceName {Ctx Span : Type} (E : Ext) (T : TracerAPI Ctx Span)
    (cfg : chi.config) (req : chi.Request Ctx) :
    (chi.startOpts E T cfg req).filter isServiceName =
      StartSpanOption.ServiceName cfg.serviceName :: cfg.spanOpts.filter isServiceName := by
  by_cases hg : cfg.analyticsRate.gtZero = true <;>
    cases hx : T.Extract (Carrier.HTTPHeadersCarrier req.Header) <;>
      simp [chi.startOpts, hg, hx, isServiceName, List.filter_cons]

/-- C19: chi `Middleware` starts every request span with the service name of its config,
ahead of any `ServiceName` among the configured span options. For an option list without
`WithServiceName` that name is the default "chi.router"; for a list with `WithServiceName`
it is the argument of the last one. `WithServiceName` changes the service name and leaves
the span options and the analytics rate as they were. -/
theorem C19_chi_service_name {Ctx Span : Type} (E : Ext) (T : TracerAPI Ctx Span)
    (StatusText : Int → String) (globalRate : Float64) (next : Ctx → chi.Served)
    (req : chi.Request Ctx) :
    (∀ options : List chi.OptionCall, (∀ c ∈ options, c.isWithServiceName = false) →
      ∃ opts, startedOpts
          (chi.Middleware E T StatusText globalRate (options.map chi.OptionCall.toOption)
            next req) = [opts] ∧
        opts.filter isServiceName =
          StartSpanOption.ServiceName "chi.router" ::
            (chi.buildConfig globalRate
              (options.map chi.OptionCall.toOption)).spanOpts.filter isServiceName) ∧
    (∀ (before after : List chi.OptionCall) (name : String),
      (∀ c ∈ after, c.isWithServiceName = false) →
      ∃ opts, startedOpts
          (chi.Middleware E T StatusText globalRate
            ((before ++ chi.OptionCall.WithServiceName name :: after).map
              chi.OptionCall.toOption) next req) = [opts] ∧
        opts.filter isServiceName =
          StartSpanOption.ServiceName name ::
            (chi.buildConfig globalRate
              ((before ++ chi.OptionCall.WithServiceName name :: after).map
                chi.OptionCall.toOption)).spanOpts.filter isServiceName) ∧
    (∀ (name : String) (cfg : chi.config),
      (chi.WithServiceName name cfg).serviceName = name ∧
      (chi.WithServiceName name cfg).spanOpts = cfg.spanOpts ∧
      (chi.WithServiceName name cfg).analyticsRate = cfg.analyticsRate) := by
  refine ⟨?_, ?_, fun _ _ => ⟨rfl, rfl, rfl⟩⟩
  · intro options hno
    refine ⟨_, chi_Middleware_startedOpts E T StatusText globalRate _ next req, ?_⟩
    rw [chi_startOpts_serviceName]
    have h : (chi.buildConfig globalRate
        (options.map chi.OptionCall.toOption)).serviceName = "chi.router" := by
      rw [chi.buildConfig, chi_foldl_keeps_serviceName options hno]
      rfl
    rw [h]
  · intro before after name hno
    refine ⟨_, chi_Middleware_startedOpts E T StatusText globalRate _ next req, ?_⟩
    rw [chi_startOpts_serviceName]
    have h : (chi.buildConfig globalRate
        ((before ++ chi.OptionCall.WithServiceName name :: after).map
          chi.OptionCall.toOption)).serviceName = name := by
      rw [chi.buildConfig, List.map_append, List.foldl_append, List.map_cons,
        List.foldl_cons, chi_foldl_keeps_serviceName after hno]
      rfl
    rw [h]

/-- C19 at work: `Middleware()` of `Example` and
`Middleware(WithServiceName("chi-server"))` of `Example_withServiceName`. -/
theorem C19_chi_service_name_witness :
    (∃ opts, startedOpts
        (chi.Middleware exampleExt exampleTracer (fun _ => "OK") Float64.zero
          (([] : List chi.OptionCall).map chi.OptionCall.toOption)
          (fun _ => ⟨200, "/"⟩) ⟨"GET", "/", [], 0⟩) = [opts] ∧
      opts.filter isServiceName = [StartSpanOption.ServiceName "chi.router"]) ∧
    (∃ opts, startedOpts
        (chi.Middleware exampleExt exampleTracer (fun _ => "OK") Float64.zero
          (([] ++ chi.OptionCall.WithServiceName "chi-server" :: []).map
            chi.OptionCall.toOption)
          (fun _ => ⟨200, "/"⟩) ⟨"GET", "/", [], 0⟩) = [opts] ∧
      opts.filter isServiceName = [StartSpanOption.ServiceName "chi-server"]) := by
  have h := C19_chi_service_name exampleExt exampleTracer (fun _ => "OK") Float64.zero
    (fun _ => ⟨200, "/"⟩) ⟨"GET", "/", [], 0⟩
  obtain ⟨o1, a1, b1⟩ := h.1 [] (by decide)
  obtain ⟨o2, a2, b2⟩ := h.2.1 [] [] "chi-server" (by decide)
  exact ⟨⟨o1, a1, b1⟩, ⟨o2, a2, b2⟩⟩

/-- C20: chi `Middleware` sets, after the handler ran, the resource name, then the status
code tag `ext.HTTPCode` with the decimal string of the status `s`, and then, if and only if
`500 <= s < 600`, the tag `ext.Error` with an error of text `s` in decimal, a colon, a
space and `http.StatusText(s)`; it sets no other tag. With `ext.Error` a key of its own,
the span receives a tag under `ext.Error` exactly for these statuses. -/
theorem C20_chi_marks_5xx_as_error {Ctx Span : Type} (E : Ext) (T : TracerAPI Ctx Span)
    (StatusText : Int → String) (globalRate : Float64) (options : List chi.Option)
    (next : Ctx → chi.Served) (req : chi.Request Ctx) (s : Int)
    (hs : (next (T.StartSpanFromContext req.ctx "http.request"
      (chi.startOpts E T (chi.buildConfig globalRate options) req)).2).status = s) :
    (∃ resourceName,
      setTags (chi.Middleware E T StatusText globalRate options next req) =
        [(E.ResourceName, Value.str resourceName), (E.HTTPCode, Value.str (Itoa s))] ++
          (if 500 ≤ s ∧ s < 600 then
            [(E.Error, Value.err (GoError.text (Itoa s ++ ": " ++ StatusText s)))]
          else [])) ∧
    (E.HTTPCode, Value.str (Itoa s)) ∈
      setTags (chi.Middleware E T StatusText globalRate options next req) ∧
    (E.Error ≠ E.ResourceName → E.Error ≠ E.HTTPCode →
      ((∃ v, (E.Error, v) ∈
          setTags (chi.Middleware E T StatusText globalRate options next req)) ↔
        (500 ≤ s ∧ s < 600)) ∧
      ∀ v, (E.Error, v) ∈
          setTags (chi.Middleware E T StatusText globalRate options next req) →
        v = Value.err (GoError.text (Itoa s ++ ": " ++ StatusText s))) := by
  have hlist : ∃ resourceName,
      setTags (chi.Middleware E T StatusText globalRate options next req) =
        [(E.ResourceName, Value.str resourceName), (E.HTTPCode, Value.str (Itoa s))] ++
          (if 500 ≤ s ∧ s < 600 then
            [(E.Error, Value.err (GoError.text (Itoa s ++ ": " ++ StatusText s)))]
          else []) := by
    refine ⟨req.Method ++ " " ++
      (if (next (T.StartSpanFromContext req.ctx "http.request"
          (chi.startOpts E T (chi.buildConfig globalRate options) req)).2).routePattern = ""
        then "unknown"
        else (next (T.StartSpanFromContext req.ctx "http.request"
          (chi.startOpts E T (chi.buildConfig globalRate options) req)).2).routePattern), ?_⟩
    simp only [chi.Middleware, chi.handler, hs, ge_iff_le]
    by_cases h5 : 500 ≤ s ∧ s < 600
    · simp only [h5, and_self, if_true]
      rfl
    · simp only [h5, if_false]
      rfl
  obtain ⟨resourceName, hl⟩ := hlist
  refine ⟨⟨resourceName, hl⟩, ?_, ?_⟩
  · rw [hl]
    simp
  · intro h1 h2
    rw [hl]
    by_cases h5 : 500 ≤ s ∧ s < 600
    · simp [h5, h1, h2]
    · simp [h5, h1, h2]

/-- C20 at work: a handler that answers 503 gets the error tag, one that answers 200 does
not; both get their status code tag. -/
theorem C20_chi_marks_5xx_as_error_witness :
    ((∃ v, (exampleExt.Error, v) ∈
        setTags (chi.Middleware exampleExt exampleTracer (fun _ => "Service Unavailable")
          Float64.zero [] (fun _ => ⟨503, "/x"⟩) ⟨"GET", "/x", [], 0⟩)) ∧
      (exampleExt.HTTPCode, Value.str "503") ∈
        setTags (chi.Middleware exampleExt exampleTracer (fun _ => "Service Unavailable")
          Float64.zero [] (fun _ => ⟨503, "/x"⟩) ⟨"GET", "/x", [], 0⟩)) ∧
    ((¬ ∃ v, (exampleExt.Error, v) ∈
        setTags (chi.Middleware exampleExt exampleTracer (fun _ => "OK")
          Float64.zero [] (fun _ => ⟨200, "/x"⟩) ⟨"GET", "/x", [], 0⟩)) ∧
      (exampleExt.HTTPCode, Value.str "200") ∈
        setTags (chi.Middleware exampleExt exampleTracer (fun _ => "OK")
          Float64.zero [] (fun _ => ⟨200, "/x"⟩) ⟨"GET", "/x", [], 0⟩)) := by
  have h1 := C20_chi_marks_5xx_as_error exampleExt exampleTracer
    (fun _ => "Service Unavailable") Float64.zero [] (fun _ => ⟨503, "/x"⟩)
    ⟨"GET", "/x", [], 0⟩ 503 rfl
  have h2 := C20_chi_marks_5xx_as_error exampleExt exampleTracer
    (fun _ => "OK") Float64.zero [] (fun _ => ⟨200, "/x"⟩) ⟨"GET", "/x", [], 0⟩ 200 rfl
  refine ⟨⟨((h1.2.2 (by decide) (by decide)).1).mpr (by decide), h1.2.1⟩,
    ⟨fun h => ?_, h2.2.1⟩⟩
  have := ((h2.2.2 (by decide) (by decide)).1).mp h
  revert this
  decide

/-- C21: chi `Middleware` sets the resource-name tag right after the call of the next
handler, before any other tag, to `r.Method`, a space, and the route pattern of the chi
route context, or "unknown" when that pattern is the empty string. So for every request the
resource name is the request method, a space, and a non-empty pattern part. With
`ext.ResourceName` a key of its own, this is the only value set under that key. -/
theorem C21_chi_resource_name {Ctx Span : Type} (E : Ext) (T : TracerAPI Ctx Span)
    (StatusText : Int → String) (globalRate : Float64) (options : List chi.Option)
    (next : Ctx → chi.Served) (req : chi.Request Ctx) (p : String)
    (hp : (next (T.StartSpanFromContext req.ctx "http.request"
      (chi.startOpts E T (chi.buildConfig globalRate options) req)).2).routePattern = p) :
    (∃ rest,
      chi.Middleware E T StatusText globalRate options next req =
        Event.StartSpanFromContext req.ctx "http.request"
            (chi.startOpts E T (chi.buildConfig globalRate options) req) ::
          Event.call (chi.Call.ServeHTTP (T.StartSpanFromContext req.ctx "http.request"
            (chi.startOpts E T (chi.buildConfig globalRate options) req)).2) ::
          Event.SetTag (T.StartSpanFromContext req.ctx "http.request"
              (chi.startOpts E T (chi.buildConfig globalRate options) req)).1
            E.ResourceName
            (Value.str (req.Method ++ " " ++ (if p = "" then "unknown" else p))) :: rest) ∧
    (∃ part, part ≠ "" ∧
      (setTags (chi.Middleware E T StatusText globalRate options next req)).head? =
        some (E.ResourceName, Value.str (req.Method ++ " " ++ part))) ∧
    (E.ResourceName ≠ E.HTTPCode → E.ResourceName ≠ E.Error →
      ∀ v, (E.ResourceName, v) ∈
          setTags (chi.Middleware E T StatusText globalRate options next req) →
        v = Value.str (req.Method ++ " " ++ (if p = "" then "unknown" else p))) := by
  have hev : ∃ rest,
      chi.Middleware E T StatusText globalRate options next req =
        Event.StartSpanFromContext req.ctx "http.request"
            (chi.startOpts E T (chi.buildConfig globalRate options) req) ::
          Event.call (chi.Call.ServeHTTP (T.StartSpanFromContext req.ctx "http.request"
            (chi.startOpts E T (chi.buildConfig globalRate options) req)).2) ::
          Event.SetTag (T.StartSpanFromContext req.ctx "http.request"
              (chi.startOpts E T (chi.buildConfig globalRate options) req)).1
            E.ResourceName
            (Value.str (req.Method ++ " " ++ (if p = "" then "unknown" else p))) :: rest := by
    simp only [chi.Middleware, chi.handler, hp, List.cons_append, List.nil_append]
    exact ⟨_, rfl⟩
  refine ⟨hev, ?_, ?_⟩
  · obtain ⟨rest, hrest⟩ := hev
    refine ⟨if p = "" then "unknown" else p, ?_, ?_⟩
    · by_cases h : p = ""
      · simp [h]
      · simp [h]
    · rw [hrest]
      rfl
  · intro h1 h2 v hv
    simp only [chi.Middleware, chi.handler, hp, List.cons_append, List.nil_append,
      setTags] at hv
    by_cases h5 : (next (T.StartSpanFromContext req.ctx "http.request"
        (chi.startOpts E T (chi.buildConfig globalRate options) req)).2).status ≥ 500 ∧
        (next (T.StartSpanFromContext req.ctx "http.request"
        (chi.startOpts E T (chi.buildConfig globalRate options) req)).2).status < 600
    · simp [h5, setTags, h1, h2] at hv
      exact hv
    · simp [h5, setTags, h1, h2] at hv
      exact hv

/-- C21 at work: a request outside any route gets the resource name "GET unknown", a
request matched by the pattern "/users" the resource name "GET /users". -/
theorem C21_chi_resource_name_witness :
    (∃ part, part ≠ "" ∧
      (setTags (chi.Middleware exampleExt exampleTracer (fun _ => "Not Found") Float64.zero []
        (fun _ => ⟨404, ""⟩) ⟨"GET", "/x", [], 0⟩)).head? =
          some ("resource.name", Value.str ("GET" ++ " " ++ part))) ∧
    (∀ v, ("resource.name", v) ∈
        setTags (chi.Middleware exampleExt exampleTracer (fun _ => "Not Found") Float64.zero
          [] (fun _ => ⟨404, ""⟩) ⟨"GET", "/x", [], 0⟩) →
      v = Value.str "GET unknown") ∧
    (∀ v, ("resource.name", v) ∈
        setTags (chi.Middleware exampleExt exampleTracer (fun _ => "OK") Float64.zero
          [] (fun _ => ⟨200, "/users"⟩) ⟨"GET", "/users", [], 0⟩) →
      v = Value.str "GET /users") :=
  ⟨(C21_chi_resource_name exampleExt exampleTracer (fun _ => "Not Found") Float64.zero []
      (fun _ => ⟨404, ""⟩) ⟨"GET", "/x", [], 0⟩ "" rfl).2.1,
    (C21_chi_resource_name exampleExt exampleTracer (fun _ => "Not Found") Float64.zero []
      (fun _ => ⟨404, ""⟩) ⟨"GET", "/x", [], 0⟩ "" rfl).2.2 (by decide) (by decide),
    (C21_chi_resource_name exampleExt exampleTracer (fun _ => "OK") Float64.zero []
      (fun _ => ⟨200, "/users"⟩) ⟨"GET", "/users", [], 0⟩ "/users" rfl).2.2
      (by decide) (by decide)⟩

theorem setTags_append {Ctx Span Call : Type} (l1 l2 : List (Event Ctx Span Call)) :
    setTags (l1 ++ l2) = setTags l1 ++ setTags l2 := by
  induction l1 with
  | nil => rfl
  | cons e es ih => cases e <;> simp [setTags, ih]

theorem setTags_map_SetTag {Ctx Span Call α : Type} (span : Span) (f : α → String)
    (g : α → Value) (l : List α) :
    setTags (l.map (fun a => (Event.SetTag span (f a) (g a) : Event Ctx Span Call))) =
      l.map (fun a => (f a, g a)) := by
  induction l with
  | nil => rfl
  | cons a l ih => simp [setTags, ih]

theorem tryTrace_setTags {Ctx Span Call : Type} (E : Ext) (T : TracerAPI Ctx Span)
    (tp : sql.traceParams) (ctx : Ctx) (resource query : String) (startTime : Int)
    (err : Err) (herr : err ≠ some sql.ErrSkip) :
    setTags (sql.tryTrace E T tp ctx resource query startTime err :
        List (Event Ctx Span Call)) =
      (if query ≠ "" then [(E.DBStatement, Value.str query)] else []) ++
        [(E.ResourceName, Value.str (if query ≠ "" then query else resource))] ++
        tp.meta.map (fun kv => (kv.1, Value.str kv.2)) ++
        [(E.DBType, Value.str tp.driverName)] := by
  simp only [sql.tryTrace, if_neg herr, setTags_append, setTags_map_SetTag]
  by_cases hq : query = "" <;> simp [hq, setTags]

end SignalFx
